import Mathlib

/-!
Verification development for the type-algebra core of typecheck.macro:
alias resolution (`resolveAllTypes`), generic instantiation with memoization
and cycle detection (`patchIR` / default-export `instantiate`), and the
structural intersection solver (`solveIntersections` / `intersect`).

The IR is a closed sum of tagged variants (see `IR.ts` / the constructors in
`IRUtils.ts`).  Recursive passes that are not structurally terminating in the
source (they recurse through the named-type table or the instantiation memo)
are embedded with an explicit fuel parameter; running out of fuel yields the
distinguished error `Err.fuel`, which no theorem ever treats as a result of
the program itself.
-/

set_option maxHeartbeats 1000000

namespace TypecheckMacro

/-- Error channel of the embedded passes.  `unregisteredType` and
`typeDoesNotAcceptGenericParameters` model the user-facing `MacroError`s of
`macro-assertions.ts`; `maybeAstError` models `throwMaybeAstError`;
`unexpectedError` models `throwUnexpectedError` (internal invariant
violations).  `fuel` is an artifact of the embedding only. -/
inductive Err where
  | fuel
  | unregisteredType (name : String)
  | typeDoesNotAcceptGenericParameters (name : String) (kind : String)
  | maybeAstError (msg : String)
  | unexpectedError (msg : String)
  deriving DecidableEq, Repr

/-- Object-property keys (`keyName: string | number` in `IR.ts`). -/
inductive PropKey where
  | str (s : String)
  | num (n : Int)
  deriving DecidableEq, Repr

/-- Literal values (`value: string | number | boolean`). -/
inductive LitVal where
  | str (s : String)
  | num (n : Int)
  | bool (b : Bool)
  deriving DecidableEq, Repr

mutual
/-- The closed IR sum type, one constructor per tagged variant of `IR.ts`.
Optional type-parameter lists are represented as possibly-empty lists. -/
inductive IR where
  | primitiveType (typeName : String)
  | literal (value : LitVal)
  | type (typeName : String) (typeParameters : List IR)
  | instantiatedType (typeName : String)
  | genericType (typeParameterIndex : Nat)
  | alias (value : IR) (typeParametersLength : Nat)
  | interface (properties : List PropertySig)
      (stringIndexerType numberIndexerType : Option IR)
      (typeParametersLength : Nat)
  | objectPattern (properties : List PropertySig)
      (stringIndexerType numberIndexerType : Option IR)
  | builtinType (typeName : String) (elementTypes : List IR)
      (typeParametersLength : Nat)
  | tuple (childTypes : List IR) (restType : Option IR)
      (firstOptionalIndex : Nat)
  | union (childTypes : List IR)
  | intersection (childTypes : List IR)
  | failedIntersection
  deriving Repr

/-- `PropertySignature`: `{keyName, optional, value}`. -/
inductive PropertySig where
  | mk (keyName : PropKey) (optional : Bool) (value : IR)
  deriving Repr
end

/-! ## Type-guard predicates (IRUtils.ts) -/

/-- `isType` (IRUtils.ts): tag check for `Type` references. -/
def isType : IR → Bool
  | .type _ _ => true
  | _ => false

/-- `isPrimitive` (IRUtils.ts). -/
def isPrimitive : IR → Bool
  | .primitiveType _ => true
  | _ => false

/-- `isInterface` (IRUtils.ts). -/
def isInterface : IR → Bool
  | .interface _ _ _ _ => true
  | _ => false

/-- `isTypeAlias` (IRUtils.ts). -/
def isTypeAlias : IR → Bool
  | .alias _ _ => true
  | _ => false

/-- `isGenericType` (IRUtils.ts). -/
def isGenericType : IR → Bool
  | .genericType _ => true
  | _ => false

/-- `isUnion` (IRUtils.ts). -/
def isUnion : IR → Bool
  | .union _ => true
  | _ => false

/-- `isIntersection` (IRUtils.ts). -/
def isIntersection : IR → Bool
  | .intersection _ => true
  | _ => false

/-- `isBuiltinType` (IRUtils.ts). -/
def isBuiltinType : IR → Bool
  | .builtinType _ _ _ => true
  | _ => false

/-- `isInstantiatedType` (IRUtils.ts). -/
def isInstantiatedType : IR → Bool
  | .instantiatedType _ => true
  | _ => false

/-- `isTuple` (IRUtils.ts). -/
def isTuple : IR → Bool
  | .tuple _ _ _ => true
  | _ => false

/-- `isLiteral` (IRUtils.ts). -/
def isLiteral : IR → Bool
  | .literal _ => true
  | _ => false

/-- `isFailedIntersection` (IRUtils.ts). -/
def isFailedIntersection : IR → Bool
  | .failedIntersection => true
  | _ => false

/-- `isObjectPattern` (IRUtils.ts, imported by resolve.ts). -/
def isObjectPattern : IR → Bool
  | .objectPattern _ _ _ => true
  | _ => false

/-- The `type` tag string of a variant, as used in error messages
(`referencedIR.type` etc.). -/
def irKind : IR → String
  | .primitiveType _ => "primitiveType"
  | .literal _ => "literal"
  | .type _ _ => "type"
  | .instantiatedType _ => "instantiatedType"
  | .genericType _ => "genericType"
  | .alias _ _ => "alias"
  | .interface _ _ _ _ => "interface"
  | .objectPattern _ _ _ => "objectPattern"
  | .builtinType _ _ _ => "builtinType"
  | .tuple _ _ _ => "tuple"
  | .union _ => "union"
  | .intersection _ => "intersection"
  | .failedIntersection => "failedIntersection"

/-! ## Association-list tables -/

/-- The named-type table `name → IR`. -/
abbrev Table := List (String × IR)

/-- First-match lookup in a named-type table. -/
def lookupTable : Table → String → Option IR
  | [], _ => none
  | (k, v) :: rest, n => if k = n then some v else lookupTable rest n

/-! ## Canonical serialization and keys

`getTypeKey` (passes/utils.ts) is not part of the given sources. -/

mutual
/-- Modelled from the spec: a deterministic canonical string for an IR value,
used to build memo keys ("a deterministic string/identity derived from a
type's name and its (recursively canonicalized) type parameters") and to
compare operands structurally during flattening.  The encoding is injective
by construction (every variant gets a distinct head and explicit
separators). -/
def serializeIR : IR → String
  | .primitiveType t => "p:" ++ t
  | .literal (.str s) => "ls:" ++ s
  | .literal (.num n) => "ln:" ++ toString n
  | .literal (.bool b) => "lb:" ++ toString b
  | .type nm ps => "t:" ++ nm ++ "<" ++ serializeList ps ++ ">"
  | .instantiatedType nm => "i:" ++ nm
  | .genericType i => "g:" ++ toString i
  | .alias v len => "a:" ++ toString len ++ "(" ++ serializeIR v ++ ")"
  | .interface props s n len =>
      "if:" ++ toString len ++ "(" ++ serializeProps props ++ "|" ++
        serializeOpt s ++ "|" ++ serializeOpt n ++ ")"
  | .objectPattern props s n =>
      "o:(" ++ serializeProps props ++ "|" ++ serializeOpt s ++ "|" ++
        serializeOpt n ++ ")"
  | .builtinType nm els len =>
      "b:" ++ nm ++ toString len ++ "<" ++ serializeList els ++ ">"
  | .tuple cs r foi =>
      "tu:" ++ toString foi ++ "(" ++ serializeList cs ++ "|" ++
        serializeOpt r ++ ")"
  | .union cs => "u:(" ++ serializeList cs ++ ")"
  | .intersection cs => "x:(" ++ serializeList cs ++ ")"
  | .failedIntersection => "f:"
def serializeList : List IR → String
  | [] => ""
  | x :: xs => serializeIR x ++ "," ++ serializeList xs
def serializeOpt : Option IR → String
  | none => "_"
  | some x => serializeIR x
def serializeProps : List PropertySig → String
  | [] => ""
  | .mk (.str k) o v :: xs =>
      "s." ++ k ++ ":" ++ toString o ++ serializeIR v ++ ";" ++ serializeProps xs
  | .mk (.num k) o v :: xs =>
      "n." ++ toString k ++ ":" ++ toString o ++ serializeIR v ++ ";" ++ serializeProps xs
end

/-- Modelled from the spec: `getTypeKey` — the canonical memo key of a `Type`
reference: its name together with its recursively canonicalized type
parameters. -/
def getTypeKey (typeName : String) (typeParameters : List IR) : String :=
  match typeParameters with
  | [] => typeName
  | _ => typeName ++ "<" ++ serializeList typeParameters ++ ">"

/-! ## Type-parameter substitution -/

mutual
/-- Modelled from the spec: the substitution step of `applyTypeParameters`
(passes/utils.ts, not among the given sources): replace each `GenericType`
placeholder with the corresponding supplied type parameter ("substitute
provided type parameters for `GenericType` placeholders").  A placeholder
with no corresponding parameter is left in place. -/
def substIR (params : List IR) : IR → IR
  | .genericType i => (params.get? i).getD (.genericType i)
  | .primitiveType t => .primitiveType t
  | .literal v => .literal v
  | .type nm ps => .type nm (substList params ps)
  | .instantiatedType nm => .instantiatedType nm
  | .alias v len => .alias (substIR params v) len
  | .interface props s n len =>
      .interface (substProps params props) (substOpt params s) (substOpt params n) len
  | .objectPattern props s n =>
      .objectPattern (substProps params props) (substOpt params s) (substOpt params n)
  | .builtinType nm els len => .builtinType nm (substList params els) len
  | .tuple cs r foi => .tuple (substList params cs) (substOpt params r) foi
  | .union cs => .union (substList params cs)
  | .intersection cs => .intersection (substList params cs)
  | .failedIntersection => .failedIntersection
def substList (params : List IR) : List IR → List IR
  | [] => []
  | x :: xs => substIR params x :: substList params xs
def substOpt (params : List IR) : Option IR → Option IR
  | none => none
  | some x => some (substIR params x)
def substProps (params : List IR) : List PropertySig → List PropertySig
  | [] => []
  | .mk k o v :: xs => .mk k o (substIR params v) :: substProps params xs
end

/-- Modelled from the spec: `applyTypeParameters` (passes/utils.ts, not among
the given sources): instantiate a declaration (alias, interface, or builtin)
with the supplied type parameters by substituting `GenericType` placeholders
in its body.  An interface body becomes an `ObjectPattern`; a builtin keeps
its shape with substituted element types.  Any other declaration kind is
returned unchanged (callers guard against this case). -/
def applyTypeParameters (decl : IR) (_typeName : String) (provided : List IR) : IR :=
  match decl with
  | .alias v _ => substIR provided v
  | .interface props s n _ =>
      .objectPattern (substProps provided props) (substOpt provided s) (substOpt provided n)
  | .builtinType nm els len => .builtinType nm (substList provided els) len
  | other => other

/-! ## Disjointness classification -/

/-- The closed set of runtime disjointness categories (spec §4.3 step 2). -/
inductive DisjointType where
  | array | boolean | number | string | nullType | undefinedType
  | object | map | set
  deriving DecidableEq, Repr

/-- The classification record returned by `getTypeInfo`. -/
structure HierarchyInfo where
  isAnything : Bool
  disjointType : Option DisjointType
  deriving DecidableEq, Repr

/-- Modelled from the spec: `getTypeInfo` (passes/utils.ts, not among the
given sources): classify an operand into a disjointness category drawn from
the closed set `{Array, boolean, number, string, null, undefined, object,
Map, Set}`, plus an "anything" escape for `any`/`unknown`.  IR variants
outside the classification carry neither flag, which the solver reports as an
internal invariant error. -/
def getTypeInfo : IR → HierarchyInfo
  | .primitiveType "any" => ⟨true, none⟩
  | .primitiveType "unknown" => ⟨true, none⟩
  | .primitiveType "string" => ⟨false, some .string⟩
  | .primitiveType "number" => ⟨false, some .number⟩
  | .primitiveType "boolean" => ⟨false, some .boolean⟩
  | .primitiveType "null" => ⟨false, some .nullType⟩
  | .primitiveType "undefined" => ⟨false, some .undefinedType⟩
  | .primitiveType "object" => ⟨false, some .object⟩
  | .literal (.str _) => ⟨false, some .string⟩
  | .literal (.num _) => ⟨false, some .number⟩
  | .literal (.bool _) => ⟨false, some .boolean⟩
  | .tuple _ _ _ => ⟨false, some .array⟩
  | .builtinType "Array" _ _ => ⟨false, some .array⟩
  | .builtinType "Set" _ _ => ⟨false, some .set⟩
  | .builtinType "Map" _ _ => ⟨false, some .map⟩
  | .objectPattern _ _ _ => ⟨false, some .object⟩
  | _ => ⟨false, none⟩

/-! ## Flatten (external pass, spec §1/§2) -/

/-- Structural-duplicate removal keyed by canonical serialization. -/
def dedupeSerial (seen : List String) : List IR → List IR
  | [] => []
  | x :: xs =>
      if seen.contains (serializeIR x) then dedupeSerial seen xs
      else x :: dedupeSerial (serializeIR x :: seen) xs

/-- Splice the operand lists of nested unions into the surrounding list. -/
def spliceUnions : List IR → List IR
  | [] => []
  | .union cs :: rest => cs ++ spliceUnions rest
  | x :: rest => x :: spliceUnions rest

/-- Splice the operand lists of nested intersections into the surrounding
list. -/
def spliceIntersections : List IR → List IR
  | [] => []
  | .intersection cs :: rest => cs ++ spliceIntersections rest
  | x :: rest => x :: spliceIntersections rest

/-- A union/intersection with a single remaining operand collapses to that
operand. -/
def collapseSingle (mk : List IR → IR) : List IR → IR
  | [x] => x
  | cs => mk cs

mutual
/-- Modelled from the spec: the external `flatten(IR) -> IR` pass, "assumed
as a pure function consumed by the solver", which "normalizes/deduplicates
union and intersection operand lists": nested same-kind operand lists are
spliced, structurally-equal operands are deduplicated, and a singleton
operand list collapses to its operand. -/
def flatten : IR → IR
  | .union cs =>
      collapseSingle IR.union (dedupeSerial [] (spliceUnions (flattenList cs)))
  | .intersection cs =>
      collapseSingle IR.intersection (dedupeSerial [] (spliceIntersections (flattenList cs)))
  | .primitiveType t => .primitiveType t
  | .literal v => .literal v
  | .type nm ps => .type nm (flattenList ps)
  | .instantiatedType nm => .instantiatedType nm
  | .genericType i => .genericType i
  | .alias v len => .alias (flatten v) len
  | .interface props s n len =>
      .interface (flattenProps props) (flattenOpt s) (flattenOpt n) len
  | .objectPattern props s n =>
      .objectPattern (flattenProps props) (flattenOpt s) (flattenOpt n)
  | .builtinType nm els len => .builtinType nm (flattenList els) len
  | .tuple cs r foi => .tuple (flattenList cs) (flattenOpt r) foi
  | .failedIntersection => .failedIntersection
def flattenList : List IR → List IR
  | [] => []
  | x :: xs => flatten x :: flattenList xs
def flattenOpt : Option IR → Option IR
  | none => none
  | some x => some (flatten x)
def flattenProps : List PropertySig → List PropertySig
  | [] => []
  | .mk k o v :: xs => .mk k o (flatten v) :: flattenProps xs
end

/-! ## Generic traversal (passes/utils.ts `traverse`)

`traverse(ir, pred, transform)` is not among the given sources.  Modelled
from the spec: a "generic callback-based tree traversal helper ...
parameterized by a predicate and a per-node transform", depth-first and
top-down.  At a node matched by the predicate the transform is applied and
its result replaces the node without being re-traversed (re-traversing the
result would make resolution of self-referential aliases diverge); an
unmatched node is rebuilt from its traversed children.  The passes below
use this traversal specialized to their predicate and callback so that each
whole pass is structurally recursive on its fuel; the generic form here,
with a state-threading transform matching the mutable state shared by the
source's callback closures, is used where the callback is not itself
recursive (`checkIfCircularRef`).  Fuel is decremented at every recursive
step and is an artifact of the embedding only. -/

mutual
/-- Generic state-threading traversal (spec-modelled `traverse`). -/
def traverseS {σ : Type} : Nat → (IR → Bool) → (IR → σ → Except Err (IR × σ)) →
    IR → σ → Except Err (IR × σ)
  | 0, _, _, _, _ => .error .fuel
  | n + 1, p, f, ir, st =>
    if p ir then f ir st
    else
      match ir with
      | .primitiveType t => .ok (.primitiveType t, st)
      | .literal v => .ok (.literal v, st)
      | .type nm ps => do
          let (ps', st') ← traverseListS n p f ps st
          .ok (.type nm ps', st')
      | .instantiatedType nm => .ok (.instantiatedType nm, st)
      | .genericType i => .ok (.genericType i, st)
      | .alias v len => do
          let (v', st') ← traverseS n p f v st
          .ok (.alias v' len, st')
      | .interface props s num len => do
          let (props', st1) ← traversePropsS n p f props st
          let (s', st2) ← traverseOptS n p f s st1
          let (num', st3) ← traverseOptS n p f num st2
          .ok (.interface props' s' num' len, st3)
      | .objectPattern props s num => do
          let (props', st1) ← traversePropsS n p f props st
          let (s', st2) ← traverseOptS n p f s st1
          let (num', st3) ← traverseOptS n p f num st2
          .ok (.objectPattern props' s' num', st3)
      | .builtinType nm els len => do
          let (els', st') ← traverseListS n p f els st
          .ok (.builtinType nm els' len, st')
      | .tuple cs r foi => do
          let (cs', st1) ← traverseListS n p f cs st
          let (r', st2) ← traverseOptS n p f r st1
          .ok (.tuple cs' r' foi, st2)
      | .union cs => do
          let (cs', st') ← traverseListS n p f cs st
          .ok (.union cs', st')
      | .intersection cs => do
          let (cs', st') ← traverseListS n p f cs st
          .ok (.intersection cs', st')
      | .failedIntersection => .ok (.failedIntersection, st)
def traverseListS {σ : Type} : Nat → (IR → Bool) →
    (IR → σ → Except Err (IR × σ)) → List IR → σ → Except Err (List IR × σ)
  | 0, _, _, _, _ => .error .fuel
  | _ + 1, _, _, [], st => .ok ([], st)
  | n + 1, p, f, x :: xs, st => do
      let (x', st1) ← traverseS n p f x st
      let (xs', st2) ← traverseListS n p f xs st1
      .ok (x' :: xs', st2)
def traverseOptS {σ : Type} : Nat → (IR → Bool) →
    (IR → σ → Except Err (IR × σ)) → Option IR → σ → Except Err (Option IR × σ)
  | 0, _, _, _, _ => .error .fuel
  | _ + 1, _, _, none, st => .ok (none, st)
  | n + 1, p, f, some x, st => do
      let (x', st') ← traverseS n p f x st
      .ok (some x', st')
def traversePropsS {σ : Type} : Nat → (IR → Bool) →
    (IR → σ → Except Err (IR × σ)) → List PropertySig → σ →
    Except Err (List PropertySig × σ)
  | 0, _, _, _, _ => .error .fuel
  | _ + 1, _, _, [], st => .ok ([], st)
  | n + 1, p, f, .mk k o v :: xs, st => do
      let (v', st1) ← traverseS n p f v st
      let (xs', st2) ← traversePropsS n p f xs st1
      .ok (.mk k o v' :: xs', st2)
end

/-! ## Resolution (passes/resolve.ts) -/

/-- `ResolveState` (resolve.ts): read-only named-type table plus the
visited-name set for the current path. -/
structure ResolveState where
  namedTypes : Table
  visitedTypes : List String

mutual
/-- `resolveType` (resolve.ts lines 37-74): the spec-modelled `traverse`
specialized to predicate `isType` and the resolution callback `resolveCB`:
at each `Type` reference apply the callback; rebuild every other node from
its resolved children. -/
def resolveType : Nat → IR → ResolveState → Except Err IR
  | 0, _, _ => .error .fuel
  | n + 1, ir, state =>
    if isType ir then resolveCB n state ir
    else
      match ir with
      | .primitiveType t => .ok (.primitiveType t)
      | .literal v => .ok (.literal v)
      | .type nm ps => do
          let ps' ← resolveTypeList n ps state
          .ok (.type nm ps')
      | .instantiatedType nm => .ok (.instantiatedType nm)
      | .genericType i => .ok (.genericType i)
      | .alias v len => do
          let v' ← resolveType n v state
          .ok (.alias v' len)
      | .interface props s num len => do
          let props' ← resolveTypeProps n props state
          let s' ← resolveTypeOpt n s state
          let num' ← resolveTypeOpt n num state
          .ok (.interface props' s' num' len)
      | .objectPattern props s num => do
          let props' ← resolveTypeProps n props state
          let s' ← resolveTypeOpt n s state
          let num' ← resolveTypeOpt n num state
          .ok (.objectPattern props' s' num')
      | .builtinType nm els len => do
          let els' ← resolveTypeList n els state
          .ok (.builtinType nm els' len)
      | .tuple cs r foi => do
          let cs' ← resolveTypeList n cs state
          let r' ← resolveTypeOpt n r state
          .ok (.tuple cs' r' foi)
      | .union cs => do
          let cs' ← resolveTypeList n cs state
          .ok (.union cs')
      | .intersection cs => do
          let cs' ← resolveTypeList n cs state
          .ok (.intersection cs')
      | .failedIntersection => .ok .failedIntersection
def resolveTypeList : Nat → List IR → ResolveState → Except Err (List IR)
  | 0, _, _ => .error .fuel
  | _ + 1, [], _ => .ok []
  | n + 1, x :: xs, state => do
      let x' ← resolveType n x state
      let xs' ← resolveTypeList n xs state
      .ok (x' :: xs')
def resolveTypeOpt : Nat → Option IR → ResolveState → Except Err (Option IR)
  | 0, _, _ => .error .fuel
  | _ + 1, none, _ => .ok none
  | n + 1, some x, state => do
      let x' ← resolveType n x state
      .ok (some x')
def resolveTypeProps : Nat → List PropertySig → ResolveState →
    Except Err (List PropertySig)
  | 0, _, _ => .error .fuel
  | _ + 1, [], _ => .ok []
  | n + 1, .mk k o v :: xs, state => do
      let v' ← resolveType n v state
      let xs' ← resolveTypeProps n xs state
      .ok (.mk k o v' :: xs')

/-- The `Type`-node callback of `resolveType` (the closure passed to
`traverse` in resolve.ts): keep a reference whose name is in the visited
set; inline and recursively resolve a non-structural alias with the visited
set extended by the name; keep interface / object-pattern-alias / builtin
references untouched; report other declaration kinds as internal invariant
errors.  Unknown names raise `UnregisteredType`. -/
def resolveCB : Nat → ResolveState → IR → Except Err IR
  | 0, _, _ => .error .fuel
  | n + 1, state, .type typeName typeParameters =>
    if state.visitedTypes.contains typeName then .ok (.type typeName typeParameters)
    else
      match lookupTable state.namedTypes typeName with
      | none => .error (.unregisteredType typeName)
      | some referencedIR =>
        if isTypeAlias referencedIR then
          let instantiatedIR := applyTypeParameters referencedIR typeName typeParameters
          if (match referencedIR with
              | .alias v _ => isObjectPattern v
              | _ => false) then
            .ok (.type typeName typeParameters)
          else
            resolveType n instantiatedIR
              ⟨state.namedTypes, typeName :: state.visitedTypes⟩
        else if isInterface referencedIR || isBuiltinType referencedIR then
          .ok (.type typeName typeParameters)
        else
          .error (.unexpectedError
            ("type reference referenced a " ++ irKind referencedIR ++
              " instead of an interface or alias"))
  | _ + 1, _, other => .ok other
end

/-- `resolveSingleType` (resolve.ts): resolve one declaration against a
table, with the visited set seeded with the declaration's own name. -/
def resolveSingleType (fuel : Nat) (ir : IR) (namedTypes : Table)
    (typeName : String) : Except Err IR :=
  resolveType fuel ir ⟨namedTypes, [typeName]⟩

/-- Entry-wise resolution against a fixed snapshot (the `for` loop of
`resolveAllTypes`, which iterates the table and overwrites each entry with
its resolution against the deep-copied snapshot). -/
def resolveEntries (fuel : Nat) (snapshot : Table) : Table → Except Err Table
  | [] => .ok []
  | (typeName, ir) :: rest => do
      let r ← resolveSingleType fuel ir snapshot typeName
      let rest' ← resolveEntries fuel snapshot rest
      .ok ((typeName, r) :: rest')

/-- `resolveAllTypes` (resolve.ts lines 19-24): resolve every entry of the
table against a deep-copied snapshot of the table taken before any entry is
mutated.  In this pure embedding the deep copy is the table value itself. -/
def resolveAllTypes (fuel : Nat) (namedTypes : Table) : Except Err Table :=
  resolveEntries fuel namedTypes namedTypes

/-! ## Instantiation (passes/instantiate.ts) -/

/-- `TypeStats`: per-key usage counters (`Map<string, number>`), as an
insertion-ordered association list with unique keys. -/
abbrev TypeStats := List (String × Nat)

/-- `Map.get` on a stats map. -/
def statsGet : TypeStats → String → Option Nat
  | [], _ => none
  | (k, v) :: rest, n => if k = n then some v else statsGet rest n

/-- `Map.set` on a stats map: update the first occurrence in place,
otherwise append (JS `Map` insertion-order semantics). -/
def statsSet : TypeStats → String → Nat → TypeStats
  | [], n, v => [(n, v)]
  | (k, w) :: rest, n, v =>
      if k = n then (k, v) :: rest else (k, w) :: statsSet rest n v

/-- `incrementTypeCount` (instantiate.ts lines 631-637). -/
def incrementTypeCount (typeInfo : TypeStats) (typeName : String) : TypeStats :=
  match statsGet typeInfo typeName with
  | none => statsSet typeInfo typeName 1
  | some v => statsSet typeInfo typeName (v + 1)

/-- The loop body of `addStats` (instantiate.ts lines 621-629), iterating
the entries of `toAdd` in order.  Note the faithful translation of
`base.set(k, (toAdd.get(k) as number) + v)`: when `base` already has `k`,
the stored value is `toAdd.get(k) + v` (twice the incoming count), not
`base.get(k) + v`. -/
def addStatsGo (toAdd : TypeStats) : TypeStats → TypeStats → TypeStats
  | base, [] => base
  | base, (k, v) :: rest =>
      let base' :=
        if (statsGet base k).isSome then
          statsSet base k ((statsGet toAdd k).getD 0 + v)
        else statsSet base k v
      addStatsGo toAdd base' rest

/-- `addStats` (instantiate.ts): fold the entries of `toAdd` into `base`. -/
def addStats (base toAdd : TypeStats) : TypeStats :=
  addStatsGo toAdd base toAdd

/-- `TypeInfo` (instantiate.ts): one memo entry. -/
structure TypeInfo where
  typeStats : TypeStats
  value : IR
  circular : Bool

/-- The instantiation memo `Map<string, TypeInfo>`. -/
abbrev Memo := List (String × TypeInfo)

/-- `Map.get` on the memo. -/
def memoGet : Memo → String → Option TypeInfo
  | [], _ => none
  | (k, v) :: rest, n => if k = n then some v else memoGet rest n

/-- `Map.set` on the memo: update in place or append. -/
def memoSet : Memo → String → TypeInfo → Memo
  | [], n, v => [(n, v)]
  | (k, w) :: rest, n, v =>
      if k = n then (k, v) :: rest else (k, w) :: memoSet rest n v

/-- `InstantiationState` (instantiate.ts): running usage statistics, the
shared memo, the read-only named-type table, the list of keys newly
instantiated by this call, and the keys recorded as circular-pending. -/
structure InstState where
  typeStats : TypeStats
  instantiatedTypes : Memo
  namedTypes : Table
  newInstantiatedTypes : List String
  circularTypes : List String

mutual
/-- `patchIR` (instantiate.ts lines 652-711): the spec-modelled `traverse`
specialized to predicate `isType` and the instantiation callback `patchCB`,
threading the instantiation state through the traversal. -/
def patchIR : Nat → IR → InstState → List String → Except Err (IR × InstState)
  | 0, _, _, _ => .error .fuel
  | n + 1, ir, state, callerTypeNames =>
    if isType ir then patchCB n callerTypeNames ir state
    else
      match ir with
      | .primitiveType t => .ok (.primitiveType t, state)
      | .literal v => .ok (.literal v, state)
      | .type nm ps => do
          let (ps', st') ← patchIRList n ps state callerTypeNames
          .ok (.type nm ps', st')
      | .instantiatedType nm => .ok (.instantiatedType nm, state)
      | .genericType i => .ok (.genericType i, state)
      | .alias v len => do
          let (v', st') ← patchIR n v state callerTypeNames
          .ok (.alias v' len, st')
      | .interface props s num len => do
          let (props', st1) ← patchIRProps n props state callerTypeNames
          let (s', st2) ← patchIROpt n s st1 callerTypeNames
          let (num', st3) ← patchIROpt n num st2 callerTypeNames
          .ok (.interface props' s' num' len, st3)
      | .objectPattern props s num => do
          let (props', st1) ← patchIRProps n props state callerTypeNames
          let (s', st2) ← patchIROpt n s st1 callerTypeNames
          let (num', st3) ← patchIROpt n num st2 callerTypeNames
          .ok (.objectPattern props' s' num', st3)
      | .builtinType nm els len => do
          let (els', st') ← patchIRList n els state callerTypeNames
          .ok (.builtinType nm els' len, st')
      | .tuple cs r foi => do
          let (cs', st1) ← patchIRList n cs state callerTypeNames
          let (r', st2) ← patchIROpt n r st1 callerTypeNames
          .ok (.tuple cs' r' foi, st2)
      | .union cs => do
          let (cs', st') ← patchIRList n cs state callerTypeNames
          .ok (.union cs', st')
      | .intersection cs => do
          let (cs', st') ← patchIRList n cs state callerTypeNames
          .ok (.intersection cs', st')
      | .failedIntersection => .ok (.failedIntersection, state)
def patchIRList : Nat → List IR → InstState → List String →
    Except Err (List IR × InstState)
  | 0, _, _, _ => .error .fuel
  | _ + 1, [], state, _ => .ok ([], state)
  | n + 1, x :: xs, state, callerTypeNames => do
      let (x', st1) ← patchIR n x state callerTypeNames
      let (xs', st2) ← patchIRList n xs st1 callerTypeNames
      .ok (x' :: xs', st2)
def patchIROpt : Nat → Option IR → InstState → List String →
    Except Err (Option IR × InstState)
  | 0, _, _, _ => .error .fuel
  | _ + 1, none, state, _ => .ok (none, state)
  | n + 1, some x, state, callerTypeNames => do
      let (x', st') ← patchIR n x state callerTypeNames
      .ok (some x', st')
def patchIRProps : Nat → List PropertySig → InstState → List String →
    Except Err (List PropertySig × InstState)
  | 0, _, _, _ => .error .fuel
  | _ + 1, [], state, _ => .ok ([], state)
  | n + 1, .mk k o v :: xs, state, callerTypeNames => do
      let (v', st1) ← patchIR n v state callerTypeNames
      let (xs', st2) ← patchIRProps n xs st1 callerTypeNames
      .ok (.mk k o v' :: xs', st2)

/-- The `Type`-node callback of `patchIR`: increment the key's global usage
count; on a key already on the call-ancestry path record it as
circular-pending and return the indirection without recursing; on a memo hit
fold the memoized usage statistics into the running total; otherwise resolve
the declaration (which must be an alias, interface, or builtin), substitute
type parameters, recurse with a fresh statistics accumulator and the
extended ancestry, and store the new memo entry with `circular := false`
before returning the indirection. -/
def patchCB : Nat → List String → IR → InstState → Except Err (IR × InstState)
  | 0, _, _, _ => .error .fuel
  | n + 1, callerTypeNames, .type typeName providedTypeParameters, state =>
    let key := getTypeKey typeName providedTypeParameters
    let indirection : IR := .instantiatedType key
    let st1 := { state with typeStats := incrementTypeCount state.typeStats key }
    if callerTypeNames.contains key then
      .ok (indirection, { st1 with circularTypes := st1.circularTypes ++ [key] })
    else
      match memoGet st1.instantiatedTypes key with
      | some partiallyResolved =>
          .ok (indirection,
            { st1 with typeStats := addStats st1.typeStats partiallyResolved.typeStats })
      | none =>
        match lookupTable st1.namedTypes typeName with
        | none => .error (.unregisteredType typeName)
        | some referencedIR =>
          if !(isInterface referencedIR || isTypeAlias referencedIR ||
              isBuiltinType referencedIR) then
            .error (.typeDoesNotAcceptGenericParameters typeName (irKind referencedIR))
          else do
            let typeParametersApplied :=
              applyTypeParameters referencedIR typeName providedTypeParameters
            let (instantiated, stRec) ←
              patchIR n typeParametersApplied { st1 with typeStats := [] }
                (key :: callerTypeNames)
            .ok (indirection,
              { stRec with
                  typeStats := addStats st1.typeStats stRec.typeStats,
                  instantiatedTypes :=
                    memoSet stRec.instantiatedTypes key
                      ⟨stRec.typeStats, instantiated, false⟩,
                  newInstantiatedTypes := stRec.newInstantiatedTypes ++ [key] })
  | _ + 1, _, other, state => .ok (other, state)
end

/-- The post-pass of the default export (instantiate.ts lines 642-648):
flip `circular` to true on the memo entry of every key recorded as
circular-pending; a pending key with no memo entry is an internal invariant
error. -/
def markCircular : List String → Memo → Except Err Memo
  | [], memo => .ok memo
  | k :: rest, memo =>
      match memoGet memo k with
      | none => .error (.unexpectedError ("Type: " ++ k ++ " was not found in instantiatedTypes"))
      | some typeInfo =>
          markCircular rest (memoSet memo k { typeInfo with circular := true })

/-- The default export of instantiate.ts (lines 639-650): run `patchIR` with
an empty ancestry and an empty circular-pending list, then mark every
circular-pending key's memo entry as circular. -/
def instantiate (fuel : Nat) (ir : IR) (state : InstState) :
    Except Err (IR × InstState) := do
  let (patchedIr, st') ← patchIR fuel ir { state with circularTypes := [] } []
  let memo' ← markCircular st'.circularTypes st'.instantiatedTypes
  .ok (patchedIr, { st' with instantiatedTypes := memo' })

/-! ## Intersection solver (passes/intersect.ts) -/

/-- The tuple-shape mismatch message of `intersectTuples`. -/
def tupleLengthMismatchMsg : String :=
  "cannot intersect tuples of different lengths unless the shorter tuple has a rest type or the longer tuple's optional elements are right after the shorter tuple's elements"

/-- The tuple element-intersection failure message of
`safeIntersectTupleTypes`. -/
def tupleElementMismatchMsg : String :=
  "Failed to intersect types when intersecting tuples"

/-- The map value-intersection failure message of `intersectMaps`. -/
def mapValueMismatchMsg : String := "failed to intersect map values"

/-- `retrieveInstantiation` (lines 239-250): dereference an
`InstantiatedType` indirection through the memo; a dangling key is an
internal invariant error. -/
def retrieveInstantiation (ir : IR) (instantiatedTypes : Memo) : Except Err IR :=
  match ir with
  | .instantiatedType nm =>
      match memoGet instantiatedTypes nm with
      | none => .error (.unexpectedError ("Could not find instantiated type: " ++ nm))
      | some instantiated => .ok instantiated.value
  | _ => .ok ir

/-- `checkIfCircularRef` (lines 360-369): does `ir` contain an
`InstantiatedType` node referencing `typeName`?  Implemented, as in the
source, as a flag-collecting traversal over all `InstantiatedType` nodes. -/
def checkIfCircularRef (fuel : Nat) (ir : IR) (typeName : String) :
    Except Err Bool := do
  let (_, flag) ← traverseS fuel isInstantiatedType
    (fun node st =>
      match node with
      | .instantiatedType nm => .ok (node, st || (nm == typeName))
      | _ => .ok (node, st)) ir false
  .ok flag

/-- Property maps `Map<string | number, {opt, value}>` as insertion-ordered
association lists. -/
abbrev PropMap := List (PropKey × Bool × IR)

/-- JS `Map.set`: update the first occurrence in place, else append. -/
def propMapSet : PropMap → PropKey → Bool × IR → PropMap
  | [], k, v => [(k, v)]
  | (k', v') :: rest, k, v =>
      if k' = k then (k', v) :: rest else (k', v') :: propMapSet rest k v

/-- JS `Map.get`. -/
def propGet : PropMap → PropKey → Option (Bool × IR)
  | [], _ => none
  | (k', v') :: rest, k => if k' = k then some v' else propGet rest k

/-- JS `Map.delete`. -/
def propDelete : PropMap → PropKey → PropMap
  | [], _ => []
  | (k', v') :: rest, k =>
      if k' = k then rest else (k', v') :: propDelete rest k

/-- `propertySignatureArrayToMap` (lines 352-358). -/
def propertySignatureArrayToMap (sigs : List PropertySig) : PropMap :=
  go [] sigs
where
  go : PropMap → List PropertySig → PropMap
  | acc, [] => acc
  | acc, .mk k o v :: rest => go (propMapSet acc k (o, v)) rest

mutual
/-- `solveIntersections` (lines 218-237): the spec-modelled `traverse`
specialized to predicate `isIntersection` and the reduction callback
`solveIntersectionsCB`: reduce every `Intersection` node found in the tree
by folding its operand list pairwise with `intersect`. -/
def solveIntersections : Nat → IR → Memo → Except Err IR
  | 0, _, _ => .error .fuel
  | n + 1, ir, instantiatedTypes =>
    if isIntersection ir then solveIntersectionsCB n ir instantiatedTypes
    else
      match ir with
      | .primitiveType t => .ok (.primitiveType t)
      | .literal v => .ok (.literal v)
      | .type nm ps => do
          let ps' ← solveIntersectionsList n ps instantiatedTypes
          .ok (.type nm ps')
      | .instantiatedType nm => .ok (.instantiatedType nm)
      | .genericType i => .ok (.genericType i)
      | .alias v len => do
          let v' ← solveIntersections n v instantiatedTypes
          .ok (.alias v' len)
      | .interface props s num len => do
          let props' ← solveIntersectionsProps n props instantiatedTypes
          let s' ← solveIntersectionsOpt n s instantiatedTypes
          let num' ← solveIntersectionsOpt n num instantiatedTypes
          .ok (.interface props' s' num' len)
      | .objectPattern props s num => do
          let props' ← solveIntersectionsProps n props instantiatedTypes
          let s' ← solveIntersectionsOpt n s instantiatedTypes
          let num' ← solveIntersectionsOpt n num instantiatedTypes
          .ok (.objectPattern props' s' num')
      | .builtinType nm els len => do
          let els' ← solveIntersectionsList n els instantiatedTypes
          .ok (.builtinType nm els' len)
      | .tuple cs r foi => do
          let cs' ← solveIntersectionsList n cs instantiatedTypes
          let r' ← solveIntersectionsOpt n r instantiatedTypes
          .ok (.tuple cs' r' foi)
      | .union cs => do
          let cs' ← solveIntersectionsList n cs instantiatedTypes
          .ok (.union cs')
      | .intersection cs => do
          let cs' ← solveIntersectionsList n cs instantiatedTypes
          .ok (.intersection cs')
      | .failedIntersection => .ok .failedIntersection
def solveIntersectionsList : Nat → List IR → Memo → Except Err (List IR)
  | 0, _, _ => .error .fuel
  | _ + 1, [], _ => .ok []
  | n + 1, x :: xs, instantiatedTypes => do
      let x' ← solveIntersections n x instantiatedTypes
      let xs' ← solveIntersectionsList n xs instantiatedTypes
      .ok (x' :: xs')
def solveIntersectionsOpt : Nat → Option IR → Memo → Except Err (Option IR)
  | 0, _, _ => .error .fuel
  | _ + 1, none, _ => .ok none
  | n + 1, some x, instantiatedTypes => do
      let x' ← solveIntersections n x instantiatedTypes
      .ok (some x')
def solveIntersectionsProps : Nat → List PropertySig → Memo →
    Except Err (List PropertySig)
  | 0, _, _ => .error .fuel
  | _ + 1, [], _ => .ok []
  | n + 1, .mk k o v :: xs, instantiatedTypes => do
      let v' ← solveIntersections n v instantiatedTypes
      let xs' ← solveIntersectionsProps n xs instantiatedTypes
      .ok (.mk k o v' :: xs')

/-- The `Intersection`-node callback of `solveIntersections` (the closure
passed to `traverse`).  An `Intersection` always has at least two operands
by construction; an empty operand list cannot be produced by the IR
constructors and is mapped to an internal invariant error. -/
def solveIntersectionsCB : Nat → IR → Memo → Except Err IR
  | 0, _, _ => .error .fuel
  | n + 1, .intersection (c :: cs), instantiatedTypes =>
      intersectFold n c cs instantiatedTypes
  | _ + 1, .intersection [], _ => .error (.unexpectedError "empty intersection")
  | _ + 1, other, _ => .ok other

/-- The pairwise left fold of `solveIntersections` (the `for` loop over
`childTypes`, lines 224-235): as soon as either side of a pairwise step or
the pairwise result is `FailedIntersection`, short-circuit the whole node to
`FailedIntersection`. -/
def intersectFold : Nat → IR → List IR → Memo → Except Err IR
  | 0, _, _, _ => .error .fuel
  | _ + 1, left, [], _ => .ok left
  | n + 1, left, r :: rs, instantiatedTypes =>
      if isFailedIntersection left || isFailedIntersection r then
        .ok .failedIntersection
      else do
        let x ← intersect n left r instantiatedTypes
        if isFailedIntersection x then .ok .failedIntersection
        else intersectFold n x rs instantiatedTypes

/-- `intersect` (lines 252-350): dereference indirections, apply the
anything-absorption rule, reject categorically disjoint operands, and
dispatch on the common disjointness category. -/
def intersect : Nat → IR → IR → Memo → Except Err IR
  | 0, _, _, _ => .error .fuel
  | n + 1, left0, right0, instantiatedTypes =>
    let leftTypeKey : Option String :=
      match left0 with | .instantiatedType nm => some nm | _ => none
    let rightTypeKey : Option String :=
      match right0 with | .instantiatedType nm => some nm | _ => none
    do
    let left ← retrieveInstantiation left0 instantiatedTypes
    let right ← retrieveInstantiation right0 instantiatedTypes
    let leftInfo := getTypeInfo left
    let rightInfo := getTypeInfo right
    if leftInfo.isAnything || rightInfo.isAnything then
      .ok (.primitiveType "any")
    else
      match leftInfo.disjointType, rightInfo.disjointType with
      | some leftDisjoint, some rightDisjoint =>
        if leftDisjoint ≠ rightDisjoint then .ok .failedIntersection
        else
          match leftDisjoint with
          | .array =>
            if isTuple left then
              if isTuple right then
                match left, right with
                | .tuple c1 r1 f1, .tuple c2 r2 f2 =>
                    intersectTuples n c1 r1 f1 c2 r2 f2 instantiatedTypes
                | _, _ => .error (.unexpectedError "expected tuples")
              else intersectArrayAndTuple n right left instantiatedTypes
            else if isTuple right then
              intersectArrayAndTuple n left right instantiatedTypes
            else intersectArrays n left right instantiatedTypes
          | .boolean | .number | .string =>
            if isPrimitive left then
              if isPrimitive right then .ok left
              else
                match right with
                | .literal _ => .ok right
                | _ => .error (.unexpectedError "expected literal type")
            else if isPrimitive right then
              match left with
              | .literal _ => .ok left
              | _ => .error (.unexpectedError "expected literal type")
            else
              match left, right with
              | .literal v1, .literal v2 =>
                  if v1 = v2 then .ok (.literal v1) else .ok .failedIntersection
              | _, _ => .error (.unexpectedError "expected literal type")
          | .nullType | .undefinedType =>
            if isPrimitive right then .ok left
            else .error (.unexpectedError "expected primitive type")
          | .object =>
            if isPrimitive left then .ok right
            else if isPrimitive right then .ok left
            else
              match left, right with
              | .objectPattern p1 s1 i1, .objectPattern p2 s2 i2 =>
                  intersectObjectPatterns n p1 s1 i1 p2 s2 i2 leftTypeKey
                    rightTypeKey instantiatedTypes
              | _, _ => .error (.unexpectedError "expected object pattern")
          | .map => intersectMaps n left right instantiatedTypes
          | .set => intersectSets n left right instantiatedTypes
      | _, _ =>
          .error (.unexpectedError
            "Hierarchy info did not have isAnything and did not have disjointType")

/-- `intersectObjectPatterns` (lines 371-429): resolve index signatures
(string-indexers intersected, number-indexers intersected, then the two
results intersected together when both exist), then merge named properties
via the property loop. -/
def intersectObjectPatterns : Nat → List PropertySig → Option IR → Option IR →
    List PropertySig → Option IR → Option IR → Option String → Option String →
    Memo → Except Err IR
  | 0, _, _, _, _, _, _, _, _, _ => .error .fuel
  | n + 1, p1, sI1, nI1, p2, sI2, nI2, t1Key, _t2Key, instantiatedTypes => do
    let resolvedStringIndexSignature : Option IR ←
      match sI1, sI2 with
      | some a, some b => do
          let x ← intersectTypes n a b instantiatedTypes
          pure (some x)
      | some a, none => pure (some a)
      | none, some b => pure (some b)
      | none, none => pure none
    let rn0 : Option IR ←
      match nI1, nI2 with
      | some a, some b => do
          let x ← intersectTypes n a b instantiatedTypes
          pure (some x)
      | some a, none => pure (some a)
      | none, some b => pure (some b)
      | none, none => pure none
    let resolvedNumberIndexSignature : Option IR ←
      match rn0, resolvedStringIndexSignature with
      | some x, some y => do
          let z ← intersectTypes n x y instantiatedTypes
          pure (some z)
      | _, _ => pure rn0
    let t1Props := propertySignatureArrayToMap p1
    let t2Props := propertySignatureArrayToMap p2
    let res ← objMergeLoop n t1Props t2Props t1Key instantiatedTypes
    match res with
    | none => .ok .failedIntersection
    | some (intersectedProperties, remaining) =>
        .ok (.objectPattern
          (intersectedProperties ++
            remaining.map (fun e => PropertySig.mk e.1 e.2.1 e.2.2))
          resolvedStringIndexSignature resolvedNumberIndexSignature)

/-- The named-property merge loop of `intersectObjectPatterns` (lines
398-421): iterate `t1Props` in insertion order; a key shared with `t2Props`
is merged (optional only if optional on both sides, value the recursive
intersection) and deleted from `t2Props`, unless the left operand's value
for it circularly references the left operand's own memo key, in which case
the whole merge is rejected (`none`, mapped to `FailedIntersection` by the
caller); a key only on the left passes through unchanged. -/
def objMergeLoop : Nat → PropMap → PropMap → Option String → Memo →
    Except Err (Option (List PropertySig × PropMap))
  | 0, _, _, _, _ => .error .fuel
  | _ + 1, [], t2Props, _, _ => .ok (some ([], t2Props))
  | n + 1, (key, opt, value) :: rest, t2Props, t1Key, instantiatedTypes =>
    match propGet t2Props key with
    | some (opt2, value2) => do
        let circular ←
          match t1Key with
          | some k1 => checkIfCircularRef n value k1
          | none => pure false
        if circular then .ok none
        else do
          let w ← intersectTypes n value value2 instantiatedTypes
          let res ← objMergeLoop n rest (propDelete t2Props key) t1Key
            instantiatedTypes
          .ok (res.map (fun pr => (PropertySig.mk key (opt && opt2) w :: pr.1, pr.2)))
    | none => do
        let res ← objMergeLoop n rest t2Props t1Key instantiatedTypes
        .ok (res.map (fun pr => (PropertySig.mk key opt value :: pr.1, pr.2)))

/-- `intersectSets` (lines 431-445). -/
def intersectSets : Nat → IR → IR → Memo → Except Err IR
  | 0, _, _, _ => .error .fuel
  | n + 1, .builtinType "Set" (e1 :: _es1) _len1, .builtinType "Set" (e2 :: _es2) _len2,
      instantiatedTypes => do
    let intersection ← intersectTypes n e1 e2 instantiatedTypes
    if isFailedIntersection intersection then .ok .failedIntersection
    else .ok (.builtinType "Set" [intersection] 1)
  | _ + 1, _, _, _ => .error (.unexpectedError "expected builtin Set")

/-- `intersectMaps` (lines 447-469): intersect key types and value types
independently; a failed key intersection yields `FailedIntersection` for the
whole map, while a failed value intersection raises an error. -/
def intersectMaps : Nat → IR → IR → Memo → Except Err IR
  | 0, _, _, _ => .error .fuel
  | n + 1, .builtinType "Map" [key1, value1] _len1, .builtinType "Map" [key2, value2] _len2,
      instantiatedTypes => do
    let keyIntersection ← intersectTypes n key1 key2 instantiatedTypes
    let valueIntersection ← intersectTypes n value1 value2 instantiatedTypes
    if isFailedIntersection keyIntersection then .ok .failedIntersection
    else if isFailedIntersection valueIntersection then
      .error (.maybeAstError mapValueMismatchMsg)
    else .ok (.builtinType "Map" [keyIntersection, valueIntersection] 2)
  | _ + 1, _, _, _ => .error (.unexpectedError "expected builtin Map")

/-- `intersectTypes` (lines 471-477): the recursive re-entry point — wrap
the two operands in an `Intersection`, flatten, and solve. -/
def intersectTypes : Nat → IR → IR → Memo → Except Err IR
  | 0, _, _, _ => .error .fuel
  | n + 1, t1, t2, instantiatedTypes =>
      solveIntersections n (flatten (.intersection [t1, t2])) instantiatedTypes

/-- `intersectArrays` (lines 479-490): intersect element types; the result
is an `Array` of the (possibly failed) element intersection. -/
def intersectArrays : Nat → IR → IR → Memo → Except Err IR
  | 0, _, _, _ => .error .fuel
  | n + 1, .builtinType "Array" (e1 :: _es1) _len1, .builtinType "Array" (e2 :: _es2) _len2,
      instantiatedTypes => do
    let intersectionOfArrayTypes ← intersectTypes n e1 e2 instantiatedTypes
    .ok (.builtinType "Array" [intersectionOfArrayTypes] 1)
  | _ + 1, _, _, _ => .error (.unexpectedError "expected builtin Array")

/-- `intersectArrayAndTuple` (lines 492-516): broadcast the array's element
type against every tuple position and against the rest element if
present. -/
def intersectArrayAndTuple : Nat → IR → IR → Memo → Except Err IR
  | 0, _, _, _ => .error .fuel
  | n + 1, .builtinType "Array" (arrayType :: _es) _len, .tuple cs r foi,
      instantiatedTypes => do
    let resolvedTypes ← intersectEachWithArray n arrayType cs instantiatedTypes
    let resolvedRestType : Option IR ←
      match r with
      | some rt => do
          let x ← intersectTypes n rt arrayType instantiatedTypes
          pure (some x)
      | none => pure none
    .ok (.tuple resolvedTypes resolvedRestType foi)
  | _ + 1, _, _, _ => .error (.unexpectedError "expected builtin Array and tuple")

/-- The per-position loop of `intersectArrayAndTuple`. -/
def intersectEachWithArray : Nat → IR → List IR → Memo → Except Err (List IR)
  | 0, _, _, _ => .error .fuel
  | _ + 1, _, [], _ => .ok []
  | n + 1, arrayType, t :: ts, instantiatedTypes => do
      let x ← intersectTypes n t arrayType instantiatedTypes
      let xs ← intersectEachWithArray n arrayType ts instantiatedTypes
      .ok (x :: xs)

/-- `safeIntersectTupleTypes` (lines 518-532): like `intersectTypes`, but a
`FailedIntersection` result raises a tuple-shape error. -/
def safeIntersectTupleTypes : Nat → IR → IR → Memo → Except Err IR
  | 0, _, _, _ => .error .fuel
  | n + 1, t1, t2, instantiatedTypes => do
    let intersected ← intersectTypes n t1 t2 instantiatedTypes
    if isFailedIntersection intersected then
      .error (.maybeAstError tupleElementMismatchMsg)
    else .ok intersected

/-- `intersectTuples` (lines 534-592): order the tuples by element count
(`tuple2` is the shorter on ties); different lengths are legal only if the
shorter tuple has a rest type or the longer tuple's `firstOptionalIndex` is
at most the shorter tuple's length (the source raises exactly when
`firstOptionalIndex > shorter.length`); positions up to the shorter length
are intersected pairwise, remaining longer-side positions intersect against
the shorter side's rest type when it exists, the merged rest type is the
intersection of both rest types when both exist, and the merged
`firstOptionalIndex` is the maximum of the two. -/
def intersectTuples : Nat → List IR → Option IR → Nat → List IR → Option IR →
    Nat → Memo → Except Err IR
  | 0, _, _, _, _, _, _, _ => .error .fuel
  | n + 1, c1, r1, f1, c2, r2, f2, instantiatedTypes =>
    let l1 := c1.length
    let l2 := c2.length
    match (if l2 > l1 then ((c1, r1, f1), (c2, r2, f2))
           else ((c2, r2, f2), (c1, r1, f1))) with
    | ((sc, sr, _sf), (lc, lr, lf)) =>
      if l1 ≠ l2 ∧ sr.isNone ∧ lf > sc.length then
        .error (.maybeAstError tupleLengthMismatchMsg)
      else do
        let shorterLen := min l1 l2
        let resolvedBase ← intersectPositions n sc lc instantiatedTypes
        let resolvedExtra ←
          match sr with
          | some rt =>
              intersectRestPositions n rt (lc.drop shorterLen) instantiatedTypes
          | none => pure []
        let resolvedRestType : Option IR ←
          match sr, lr with
          | some a, some b => do
              let x ← intersectTypes n a b instantiatedTypes
              pure (some x)
          | _, _ => pure none
        .ok (.tuple (resolvedBase ++ resolvedExtra) resolvedRestType (max f1 f2))

/-- The pairwise-position loop of `intersectTuples` (indices below the
shorter length; the shorter operand list itself has exactly that length). -/
def intersectPositions : Nat → List IR → List IR → Memo → Except Err (List IR)
  | 0, _, _, _ => .error .fuel
  | _ + 1, [], _, _ => .ok []
  | _ + 1, _, [], _ => .ok []
  | n + 1, x :: xs, y :: ys, instantiatedTypes => do
      let z ← safeIntersectTupleTypes n x y instantiatedTypes
      let zs ← intersectPositions n xs ys instantiatedTypes
      .ok (z :: zs)

/-- The rest-type loop of `intersectTuples` (longer-side positions past the
shorter length, intersected against the shorter side's rest type). -/
def intersectRestPositions : Nat → IR → List IR → Memo → Except Err (List IR)
  | 0, _, _, _ => .error .fuel
  | _ + 1, _, [], _ => .ok []
  | n + 1, restT, y :: ys, instantiatedTypes => do
      let z ← safeIntersectTupleTypes n restT y instantiatedTypes
      let zs ← intersectRestPositions n restT ys instantiatedTypes
      .ok (z :: zs)
end

/-! # Theorems -/

/-! ## Basic facts about the tag predicates -/

lemma isFailedIntersection_iff {x : IR} :
    isFailedIntersection x = true ↔ x = .failedIntersection := by
  cases x <;> simp [isFailedIntersection]

lemma isFailedIntersection_false_iff {x : IR} :
    isFailedIntersection x = false ↔ x ≠ .failedIntersection := by
  cases x <;> simp [isFailedIntersection]

/-! ## Claim C1: tuple-shape mismatch condition

The source raises the tuple-shape error exactly when the lengths differ, the
shorter tuple has no rest type, and the longer tuple's `firstOptionalIndex`
exceeds (is strictly greater than) the shorter tuple's length.  The claim
instead demands an error whenever `firstOptionalIndex` of the longer tuple
is strictly *below* the shorter tuple's length (its legality condition is
`firstOptionalIndex ≥ shorter.length`), which is refuted below. -/

/-- C1: counterexample.  `[number, string]` (no rest type) intersected with
`[number, string, boolean]` whose `firstOptionalIndex` is `1`: the lengths
differ (2 ≠ 3), the shorter tuple has no rest type, and the longer tuple's
`firstOptionalIndex` (1) is strictly below the shorter tuple's length (2) —
by the claim this is not one of the two legal different-length cases, so a
reportable tuple-shape-mismatch error would have to be raised, but the
source merges successfully, dropping the optional extra position. -/
theorem C1_counterexample :
    (2 : Nat) ≠ 3 ∧ (1 : Nat) < 2 ∧
    intersectTuples 20
      [.primitiveType "number", .primitiveType "string"] none 2
      [.primitiveType "number", .primitiveType "string", .primitiveType "boolean"] none 1
      [] =
      .ok (.tuple [.primitiveType "number", .primitiveType "string"] none 2) :=
  ⟨by decide, by decide, by rfl⟩

/-- C1 (amended): with `shorter`/`longer` ordered by element count as in the
source (`tuple2` is the shorter on ties), a different-length merge raises
the reportable tuple-shape-mismatch error exactly when the shorter tuple has
no rest type and the longer tuple's `firstOptionalIndex` is strictly greater
than the shorter tuple's length; consequently a merge can succeed only if
the lengths agree, or the shorter tuple has a rest type, or the longer
tuple's `firstOptionalIndex` is at most (not at least) the shorter tuple's
length. -/
theorem C1_theorem (n : Nat) (c1 c2 : List IR) (r1 r2 : Option IR)
    (f1 f2 : Nat) (m : Memo) (sc : List IR) (sr : Option IR) (lf : Nat)
    (hsel : ((sc, sr), lf) =
      if c2.length > c1.length then ((c1, r1), f2) else ((c2, r2), f1)) :
    (c1.length ≠ c2.length → sr = none → sc.length < lf →
      intersectTuples (n + 1) c1 r1 f1 c2 r2 f2 m =
        .error (.maybeAstError tupleLengthMismatchMsg)) ∧
    (∀ r, intersectTuples (n + 1) c1 r1 f1 c2 r2 f2 m = .ok r →
      c1.length = c2.length ∨ sr ≠ none ∨ lf ≤ sc.length) := by
  by_cases h : c2.length > c1.length
  · simp only [if_pos h] at hsel
    obtain ⟨h1, hlf⟩ := Prod.mk.injEq .. ▸ hsel
    obtain ⟨hsc, hsr⟩ := Prod.mk.injEq .. ▸ h1
    subst hsc; subst hsr; subst hlf
    constructor
    · intro hne hnone hlt
      simp only [intersectTuples, if_pos h]
      rw [if_pos]
      exact ⟨hne, by simp [hnone], hlt⟩
    · intro r hr
      by_contra hcon
      push_neg at hcon
      obtain ⟨hne, hnone, hlt⟩ := hcon
      simp only [intersectTuples, if_pos h] at hr
      rw [if_pos ⟨hne, by simp [hnone], hlt⟩] at hr
      exact absurd hr (by simp)
  · simp only [if_neg h] at hsel
    obtain ⟨h1, hlf⟩ := Prod.mk.injEq .. ▸ hsel
    obtain ⟨hsc, hsr⟩ := Prod.mk.injEq .. ▸ h1
    subst hsc; subst hsr; subst hlf
    constructor
    · intro hne hnone hlt
      simp only [intersectTuples, if_neg h]
      rw [if_pos]
      exact ⟨hne, by simp [hnone], hlt⟩
    · intro r hr
      by_contra hcon
      push_neg at hcon
      obtain ⟨hne, hnone, hlt⟩ := hcon
      simp only [intersectTuples, if_neg h] at hr
      rw [if_pos ⟨hne, by simp [hnone], hlt⟩] at hr
      exact absurd hr (by simp)

/-- C1: witness for the amended theorem, discharging its hypotheses at the
concrete mismatching pair `[number] ∩ [number, string]` where the longer
tuple's `firstOptionalIndex` (2) exceeds the shorter tuple's length (1). -/
theorem C1_witness :
    intersectTuples 5 [.primitiveType "number"] none 1
      [.primitiveType "number", .primitiveType "string"] none 2 [] =
      .error (.maybeAstError tupleLengthMismatchMsg) :=
  (C1_theorem 4 [.primitiveType "number"]
    [.primitiveType "number", .primitiveType "string"] none none 1 2 []
    [.primitiveType "number"] none 2 (by simp)).1 (by simp) rfl (by simp)

/-- `do`-bind of a successful `Except` computation reduces to the
continuation. -/
lemma ok_bind {α β : Type} (a : α) (f : α → Except Err β) :
    (Except.ok a : Except Err α) >>= f = f a := rfl

/-! ## Claim C5: Map key/value intersection asymmetry -/

/-- C5: for every pair of Map operands whose key intersection and value
intersection both complete (no exception escapes the sub-intersections), the
key and value types are intersected independently; a `FailedIntersection`
key intersection makes the whole map intersection return
`FailedIntersection`, a `FailedIntersection` value intersection (with a
non-failed key) raises the value-mismatch error instead of returning a
result, and otherwise the result is the Map of the two intersections. -/
theorem C5_theorem (n : Nat) (key1 value1 key2 value2 kr vr : IR) (m : Memo)
    (hk : intersectTypes n key1 key2 m = .ok kr)
    (hv : intersectTypes n value1 value2 m = .ok vr) :
    (kr = .failedIntersection →
      intersectMaps (n + 1) (.builtinType "Map" [key1, value1] 2)
        (.builtinType "Map" [key2, value2] 2) m = .ok .failedIntersection) ∧
    (kr ≠ .failedIntersection → vr = .failedIntersection →
      intersectMaps (n + 1) (.builtinType "Map" [key1, value1] 2)
        (.builtinType "Map" [key2, value2] 2) m =
        .error (.maybeAstError mapValueMismatchMsg)) ∧
    (kr ≠ .failedIntersection → vr ≠ .failedIntersection →
      intersectMaps (n + 1) (.builtinType "Map" [key1, value1] 2)
        (.builtinType "Map" [key2, value2] 2) m =
        .ok (.builtinType "Map" [kr, vr] 2)) := by
  refine ⟨?_, ?_, ?_⟩
  · intro hkr
    subst hkr
    simp only [intersectMaps, hk, hv, ok_bind]
    rfl
  · intro hkr hvr
    subst hvr
    simp only [intersectMaps, hk, hv, ok_bind]
    split
    · next hcond => exact absurd (isFailedIntersection_iff.mp hcond) hkr
    · rfl
  · intro hkr hvr
    simp only [intersectMaps, hk, hv, ok_bind]
    split
    · next hcond => exact absurd (isFailedIntersection_iff.mp hcond) hkr
    · split
      · next hcond => exact absurd (isFailedIntersection_iff.mp hcond) hvr
      · rfl

/-- C5: witness.  `Map<string, string> ∩ Map<number, string>` has disjoint
key categories, so the key intersection fails and the whole map intersection
is `FailedIntersection`; `Map<string, string> ∩ Map<string, number>` has a
failing value intersection, which raises the value-mismatch error. -/
theorem C5_witness :
    intersectMaps 10 (.builtinType "Map" [.primitiveType "string", .primitiveType "string"] 2)
      (.builtinType "Map" [.primitiveType "number", .primitiveType "string"] 2) [] =
      .ok .failedIntersection ∧
    intersectMaps 10 (.builtinType "Map" [.primitiveType "string", .primitiveType "string"] 2)
      (.builtinType "Map" [.primitiveType "string", .primitiveType "number"] 2) [] =
      .error (.maybeAstError mapValueMismatchMsg) := by
  constructor
  · exact (C5_theorem 9 (.primitiveType "string") (.primitiveType "string")
      (.primitiveType "number") (.primitiveType "string") .failedIntersection
      (.primitiveType "string") [] (by rfl) (by rfl)).1 rfl
  · exact ((C5_theorem 9 (.primitiveType "string") (.primitiveType "string")
      (.primitiveType "string") (.primitiveType "number") (.primitiveType "string")
      .failedIntersection [] (by rfl) (by rfl)).2.1 (by simp) rfl)

/-! ## Claim C9: any/unknown absorption -/

/-- C9: if either operand of `intersect` is (after dereferencing through the
memo, which is the identity on a primitive operand) the `any` or `unknown`
primitive, the intersection is absorbed to the `any` primitive, whatever the
other operand is. -/
theorem C9_theorem (n : Nat) (l r l' r' : IR) (m : Memo)
    (hl : retrieveInstantiation l m = .ok l')
    (hr : retrieveInstantiation r m = .ok r')
    (hany : l' = .primitiveType "any" ∨ l' = .primitiveType "unknown" ∨
            r' = .primitiveType "any" ∨ r' = .primitiveType "unknown") :
    intersect (n + 1) l r m = .ok (.primitiveType "any") := by
  rcases hany with h | h | h | h <;> subst h <;> simp only [intersect, hl, hr, ok_bind]
  · rfl
  · rfl
  · split
    · rfl
    · next hcond => exact absurd (Bool.or_true _) hcond
  · split
    · rfl
    · next hcond => exact absurd (Bool.or_true _) hcond

/-- C9: witness.  `string ∩ unknown = any` and `any ∩ Set<number> = any`. -/
theorem C9_witness :
    intersect 5 (.primitiveType "string") (.primitiveType "unknown") [] =
      .ok (.primitiveType "any") ∧
    intersect 5 (.primitiveType "any")
      (.builtinType "Set" [.primitiveType "number"] 1) [] =
      .ok (.primitiveType "any") :=
  ⟨C9_theorem 4 (.primitiveType "string") (.primitiveType "unknown")
      (.primitiveType "string") (.primitiveType "unknown") [] rfl rfl
      (Or.inr (Or.inr (Or.inr rfl))),
   C9_theorem 4 (.primitiveType "any") (.builtinType "Set" [.primitiveType "number"] 1)
      (.primitiveType "any") (.builtinType "Set" [.primitiveType "number"] 1) [] rfl rfl
      (Or.inl rfl)⟩

/-- `do`-bind of a failed `Except` computation is that failure. -/
lemma error_bind {α β : Type} (e : Err) (f : α → Except Err β) :
    (Except.error e : Except Err α) >>= f = .error e := rfl

/-- If the pairwise fold of an intersection completes and the initial
operand or any later operand is `FailedIntersection`, the fold's result is
`FailedIntersection`. -/
lemma intersectFold_ok_absorb : ∀ (cs : List IR) (n : Nat) (c : IR) (m : Memo)
    (r : IR), intersectFold n c cs m = .ok r →
    (c = .failedIntersection ∨ .failedIntersection ∈ cs) →
    r = .failedIntersection := by
  intro cs
  induction cs with
  | nil =>
    intro n c m r h hmem
    cases n with
    | zero => simp [intersectFold] at h
    | succ k =>
      simp only [intersectFold] at h
      rcases hmem with hc | hmem
      · injection h with h'
        rw [← h', hc]
      · simp at hmem
  | cons hd tl ih =>
    intro n c m r h hmem
    cases n with
    | zero => simp [intersectFold] at h
    | succ k =>
      simp only [intersectFold] at h
      by_cases hfi : (isFailedIntersection c || isFailedIntersection hd) = true
      · rw [if_pos hfi] at h
        injection h with h'
        exact h'.symm
      · rw [if_neg hfi] at h
        cases hx : intersect k c hd m with
        | error e =>
          rw [hx, error_bind] at h
          exact absurd h (by simp)
        | ok x =>
          rw [hx, ok_bind] at h
          by_cases hfx : isFailedIntersection x = true
          · rw [if_pos hfx] at h
            injection h with h'
            exact h'.symm
          · rw [if_neg hfx] at h
            have hmem' : IR.failedIntersection ∈ tl := by
              rcases hmem with hc | hmem
              · rw [hc] at hfi
                simp [isFailedIntersection] at hfi
              · rcases List.mem_cons.mp hmem with hh | ht
                · rw [← hh] at hfi
                  simp [isFailedIntersection] at hfi
                · exact ht
            exact ih k x m r h (Or.inr hmem')

/-! ## Claim C6: solveIntersections is an absorbing pairwise left fold -/

/-- C6: `solveIntersections` reduces an `Intersection` node by the pairwise
left fold `intersectFold` over its operand list, and `FailedIntersection` is
absorbing: whenever the fold completes and any operand was
`FailedIntersection`, the node's reduction is `FailedIntersection`, and
whenever an intermediate pairwise result is `FailedIntersection` the fold
short-circuits to `FailedIntersection` immediately. -/
theorem C6_theorem (n : Nat) (c : IR) (cs : List IR) (m : Memo) :
    (solveIntersections (n + 2) (.intersection (c :: cs)) m =
      intersectFold n c cs m) ∧
    (∀ r, intersectFold n c cs m = .ok r →
      (c = .failedIntersection ∨ .failedIntersection ∈ cs) →
      r = .failedIntersection) ∧
    (∀ (l x : IR) (rest : List IR), intersect n l x m = .ok .failedIntersection →
      intersectFold (n + 1) l (x :: rest) m = .ok .failedIntersection) := by
  refine ⟨rfl, fun r h hmem => intersectFold_ok_absorb cs n c m r h hmem, ?_⟩
  intro l x rest hx
  simp only [intersectFold]
  by_cases hfi : (isFailedIntersection l || isFailedIntersection x) = true
  · rw [if_pos hfi]
  · rw [if_neg hfi, hx, ok_bind]
    rfl

/-- C6: witness.  `string & FailedIntersection` solves to
`FailedIntersection` through the fold. -/
theorem C6_witness :
    solveIntersections 7 (.intersection [.primitiveType "string", .failedIntersection]) [] =
      .ok .failedIntersection := by
  have h1 := (C6_theorem 5 (.primitiveType "string") [.failedIntersection] []).1
  have hr : intersectFold 5 (.primitiveType "string") [.failedIntersection] [] =
      .ok IR.failedIntersection := by rfl
  have h2 := (C6_theorem 5 (.primitiveType "string") [.failedIntersection] []).2.1
    IR.failedIntersection hr (Or.inr (by simp))
  rw [h1, hr]

/-- `do`-bind of a `pure` `Except` computation reduces to the
continuation. -/
lemma pure_bind_ex {α β : Type} (a : α) (f : α → Except Err β) :
    (pure a : Except Err α) >>= f = f a := rfl

/-! ## Claim C7: circular shared-key rejection

The source checks only the *left* operand: in `intersectObjectPatterns`, a
shared key is rejected iff `t1Key` is non-null and the left operand's value
for that key contains an `InstantiatedType` reference to `t1Key`.  A
circular property on the right operand is not detected, refuting the claim
that a circular property "back into one of the two operands" fails the whole
intersection. -/

/-- C7: counterexample.  Memo: `A ↦ {x: number}`, `B ↦ {x: B}` (the right
operand's shared-key value circularly embeds the right operand itself, as
the first conjunct certifies).  The claim requires the object intersection
`A ∩ B` to return `FailedIntersection`, but the source recurses and returns
an object pattern (whose `x` property solved to `FailedIntersection`), which
is not the `FailedIntersection` sentinel. -/
theorem C7_counterexample :
    checkIfCircularRef 10 (.instantiatedType "B") "B" = .ok true ∧
    intersect 30 (.instantiatedType "A") (.instantiatedType "B")
      [("A", ⟨[], .objectPattern [.mk (.str "x") false (.primitiveType "number")] none none, false⟩),
       ("B", ⟨[], .objectPattern [.mk (.str "x") false (.instantiatedType "B")] none none, false⟩)] =
      .ok (.objectPattern [.mk (.str "x") false .failedIntersection] none none) ∧
    (Except.ok (IR.objectPattern [.mk (.str "x") false .failedIntersection] none none) :
      Except Err IR) ≠ .ok .failedIntersection :=
  ⟨rfl, rfl, by simp⟩

/-- C7 (amended): the rejection is left-sided.  For object patterns with no
index signatures whose first left-side property (in map order) is shared
with the right side, if the *left* operand's value for that key circularly
references the left operand's own memo key, the whole object intersection
returns `FailedIntersection` without recursing into that key. -/
theorem C7_theorem (n : Nat) (k : PropKey) (o : Bool) (v : IR)
    (p1rest : PropMap) (p1 p2 : List PropertySig)
    (key1 : String) (t2Key : Option String) (m : Memo) (o2 : Bool) (v2 : IR)
    (hmap : propertySignatureArrayToMap p1 = (k, o, v) :: p1rest)
    (hshared : propGet (propertySignatureArrayToMap p2) k = some (o2, v2))
    (hcirc : checkIfCircularRef n v key1 = .ok true) :
    intersectObjectPatterns (n + 2) p1 none none p2 none none (some key1) t2Key m =
      .ok .failedIntersection := by
  simp only [intersectObjectPatterns, pure_bind_ex, hmap]
  simp only [objMergeLoop, hshared, hcirc, ok_bind]
  rfl

/-- C7: witness for the amended theorem at `{x: Self} ∩ {x: number}` with
the left operand's key `Self`. -/
theorem C7_witness :
    intersectObjectPatterns 7
      [.mk (.str "x") false (.instantiatedType "Self")] none none
      [.mk (.str "x") false (.primitiveType "number")] none none
      (some "Self") none [] = .ok .failedIntersection :=
  C7_theorem 5 (.str "x") false (.instantiatedType "Self") []
    [.mk (.str "x") false (.instantiatedType "Self")]
    [.mk (.str "x") false (.primitiveType "number")]
    "Self" none [] false (.primitiveType "number") rfl rfl rfl


lemma propGet_propDelete_ne : ∀ (l : PropMap) (k k' : PropKey), k' ≠ k →
    propGet (propDelete l k) k' = propGet l k' := by
  intro l k k' hne
  induction l with
  | nil => rfl
  | cons e rest ih =>
    obtain ⟨ek, ev⟩ := e
    by_cases h : ek = k
    · subst h
      have hne'' : ¬ (ek = k') := fun hh => hne hh.symm
      simp [propDelete, propGet, hne'']
    · by_cases h2 : ek = k'
      · subst h2
        simp [propDelete, propGet, h, fun hh => hne hh]
      · simp [propDelete, propGet, h, h2, ih]

lemma mem_propDelete_of_ne : ∀ (l : PropMap) (e : PropKey × Bool × IR)
    (k : PropKey), e ∈ l → e.1 ≠ k → e ∈ propDelete l k := by
  intro l e k hmem hne
  induction l with
  | nil => simp at hmem
  | cons x rest ih =>
    obtain ⟨xk, xv⟩ := x
    rcases List.mem_cons.mp hmem with he | ht
    · subst he
      have hxk : ¬ (xk = k) := hne
      simp [propDelete, hxk]
    · by_cases h : xk = k
      · simp [propDelete, h]; exact ht
      · simp only [propDelete, if_neg h]
        exact List.mem_cons.mpr (Or.inr (ih ht))

lemma objMergeLoop_none_spec : ∀ (p1m : PropMap) (n : Nat) (p2m : PropMap)
    (m : Memo) (sigs : List PropertySig) (rem : PropMap),
    objMergeLoop n p1m p2m none m = .ok (some (sigs, rem)) →
    (p1m.map Prod.fst).Nodup →
    ((∀ k o v, (k, o, v) ∈ p1m → propGet p2m k = none →
        PropertySig.mk k o v ∈ sigs) ∧
     (∀ k o v, (k, o, v) ∈ p1m → ∀ o2 v2, propGet p2m k = some (o2, v2) →
        ∃ fu w, fu < n ∧ intersectTypes fu v v2 m = .ok w ∧
          PropertySig.mk k (o && o2) w ∈ sigs) ∧
     (∀ e ∈ p2m, e.1 ∉ p1m.map Prod.fst → e ∈ rem)) := by
  intro p1m
  induction p1m with
  | nil =>
    intro n p2m m sigs rem h _
    cases n with
    | zero => simp [objMergeLoop] at h
    | succ j =>
      simp only [objMergeLoop] at h
      injection h with h'
      injection h' with h''
      obtain ⟨hs, hr⟩ := Prod.mk.injEq .. ▸ h''
      refine ⟨by simp, by simp, ?_⟩
      intro e he _
      rw [← hr]; exact he
  | cons hd tl ih =>
    obtain ⟨k, o, v⟩ := hd
    intro n p2m m sigs rem h hnd
    have hnd0 : (k :: tl.map Prod.fst).Nodup := by simpa using hnd
    obtain ⟨hk_not, hnd'⟩ := List.nodup_cons.mp hnd0
    cases n with
    | zero => simp [objMergeLoop] at h
    | succ j =>
      simp only [objMergeLoop] at h
      cases hget : propGet p2m k with
      | some pr =>
        obtain ⟨o2, v2⟩ := pr
        rw [hget] at h
        simp only [pure_bind_ex] at h
        rw [if_neg (by exact Bool.false_ne_true)] at h
        cases hw : intersectTypes j v v2 m with
        | error e => rw [hw, error_bind] at h; simp at h
        | ok w =>
          rw [hw, ok_bind] at h
          cases hrec : objMergeLoop j tl (propDelete p2m k) none m with
          | error e => rw [hrec, error_bind] at h; simp at h
          | ok resr =>
            rw [hrec, ok_bind] at h
            cases resr with
            | none => simp at h
            | some pr2 =>
              obtain ⟨sigs', rem'⟩ := pr2
              injection h with h'
              injection h' with h''
              obtain ⟨hs, hr⟩ := Prod.mk.injEq .. ▸ h''
              obtain ⟨ih1, ih2, ih3⟩ := ih j (propDelete p2m k) m sigs' rem' hrec hnd'
              refine ⟨?_, ?_, ?_⟩
              · intro k' o' v' hmem hnone
                rcases List.mem_cons.mp hmem with he | ht
                · exfalso
                  obtain ⟨hk1, _⟩ := Prod.mk.injEq .. ▸ he
                  rw [hk1] at hnone
                  rw [hnone] at hget
                  exact Option.noConfusion hget
                · have hne : k' ≠ k := fun hh =>
                    hk_not (hh ▸ (List.mem_map.mpr ⟨_, ht, rfl⟩))
                  have := ih1 k' o' v' ht
                    (by rw [propGet_propDelete_ne _ _ _ hne]; exact hnone)
                  rw [← hs]
                  exact List.mem_cons.mpr (Or.inr this)
              · intro k' o' v' hmem o2' v2' hsome
                rcases List.mem_cons.mp hmem with he | ht
                · obtain ⟨hk1, hrest⟩ := Prod.mk.injEq .. ▸ he
                  obtain ⟨ho1, hv1⟩ := Prod.mk.injEq .. ▸ hrest
                  subst hk1; subst ho1; subst hv1
                  rw [hget] at hsome
                  injection hsome with hsome'
                  obtain ⟨ho2, hv2⟩ := Prod.mk.injEq .. ▸ hsome'
                  subst ho2; subst hv2
                  exact ⟨j, w, Nat.lt_succ_self j, hw,
                    by rw [← hs]; exact List.mem_cons_self _ _⟩
                · have hne : k' ≠ k := fun hh =>
                    hk_not (hh ▸ (List.mem_map.mpr ⟨_, ht, rfl⟩))
                  obtain ⟨fu, w', hfu, hw', hmem'⟩ := ih2 k' o' v' ht o2' v2'
                    (by rw [propGet_propDelete_ne _ _ _ hne]; exact hsome)
                  exact ⟨fu, w', Nat.lt_succ_of_lt hfu, hw',
                    by rw [← hs]; exact List.mem_cons.mpr (Or.inr hmem')⟩
              · intro e he hkeys
                have hne : e.1 ≠ k := by
                  intro hh
                  exact hkeys (by rw [List.map_cons, hh]; exact List.mem_cons_self _ _)
                have := ih3 e (mem_propDelete_of_ne _ _ _ he hne)
                  (fun hc => hkeys (by rw [List.map_cons]; exact List.mem_cons.mpr (Or.inr hc)))
                rw [← hr]; exact this
      | none =>
        rw [hget] at h
        cases hrec : objMergeLoop j tl p2m none m with
        | error e => rw [hrec, error_bind] at h; simp at h
        | ok resr =>
          rw [hrec, ok_bind] at h
          cases resr with
          | none => simp at h
          | some pr2 =>
            obtain ⟨sigs', rem'⟩ := pr2
            injection h with h'
            injection h' with h''
            obtain ⟨hs, hr⟩ := Prod.mk.injEq .. ▸ h''
            obtain ⟨ih1, ih2, ih3⟩ := ih j p2m m sigs' rem' hrec hnd'
            refine ⟨?_, ?_, ?_⟩
            · intro k' o' v' hmem hnone
              rcases List.mem_cons.mp hmem with he | ht
              · obtain ⟨hk1, hrest⟩ := Prod.mk.injEq .. ▸ he
                obtain ⟨ho1, hv1⟩ := Prod.mk.injEq .. ▸ hrest
                subst hk1; subst ho1; subst hv1
                rw [← hs]
                exact List.mem_cons_self _ _
              · rw [← hs]
                exact List.mem_cons.mpr (Or.inr (ih1 k' o' v' ht hnone))
            · intro k' o' v' hmem o2' v2' hsome
              rcases List.mem_cons.mp hmem with he | ht
              · exfalso
                obtain ⟨hk1, _⟩ := Prod.mk.injEq .. ▸ he
                rw [hk1] at hsome
                rw [hsome] at hget
                exact Option.noConfusion hget
              · obtain ⟨fu, w', hfu, hw', hmem'⟩ := ih2 k' o' v' ht o2' v2' hsome
                exact ⟨fu, w', Nat.lt_succ_of_lt hfu, hw',
                  by rw [← hs]; exact List.mem_cons.mpr (Or.inr hmem')⟩
            · intro e he hkeys
              have := ih3 e he
                (fun hc => hkeys (by rw [List.map_cons]; exact List.mem_cons.mpr (Or.inr hc)))
              rw [← hr]; exact this


/-! ## Claim C8: structural object merge -/

/-- C8: for object patterns without index signatures (and with no operand
memo keys, as when the operands are direct object patterns), if the merge
succeeds then: a left-side property whose key is absent on the right passes
through unchanged into the merged properties; a property key present on both
sides is merged as optional-only-if-optional-on-both with value the
recursive intersection (`intersectTypes`) of the two value types; and a
right-side property whose key is absent on the left passes through
unchanged.  Properties are compared through the source's key-deduplicating
property maps, whose left key list is assumed duplicate-free (always true
for maps built from well-formed object patterns). -/
theorem C8_theorem (n : Nat) (p1 p2 : List PropertySig) (m : Memo)
    (props : List PropertySig) (sIdx nIdx : Option IR)
    (h : intersectObjectPatterns (n + 1) p1 none none p2 none none none none m =
      .ok (.objectPattern props sIdx nIdx))
    (hnd : ((propertySignatureArrayToMap p1).map Prod.fst).Nodup) :
    (∀ k o v, (k, o, v) ∈ propertySignatureArrayToMap p1 →
      propGet (propertySignatureArrayToMap p2) k = none →
      PropertySig.mk k o v ∈ props) ∧
    (∀ k o v, (k, o, v) ∈ propertySignatureArrayToMap p1 →
      ∀ o2 v2, propGet (propertySignatureArrayToMap p2) k = some (o2, v2) →
      ∃ fu w, intersectTypes fu v v2 m = .ok w ∧
        PropertySig.mk k (o && o2) w ∈ props) ∧
    (∀ e ∈ propertySignatureArrayToMap p2,
      e.1 ∉ (propertySignatureArrayToMap p1).map Prod.fst →
      PropertySig.mk e.1 e.2.1 e.2.2 ∈ props) := by
  simp only [intersectObjectPatterns, pure_bind_ex] at h
  cases hrec : objMergeLoop n (propertySignatureArrayToMap p1)
      (propertySignatureArrayToMap p2) none m with
  | error e => rw [hrec, error_bind] at h; exact absurd h (by simp)
  | ok res =>
    rw [hrec, ok_bind] at h
    cases res with
    | none =>
      exfalso
      injection h with h'
      exact IR.noConfusion h'
    | some pr =>
      obtain ⟨sigs, rem⟩ := pr
      injection h with h'
      obtain ⟨hp, hsi, hni⟩ :
          sigs ++ rem.map (fun e => PropertySig.mk e.1 e.2.1 e.2.2) = props ∧
          (none : Option IR) = sIdx ∧ (none : Option IR) = nIdx := by
        injection h' with a b c
        exact ⟨a, b, c⟩
      obtain ⟨l1, l2, l3⟩ := objMergeLoop_none_spec _ n _ m sigs rem hrec hnd
      refine ⟨?_, ?_, ?_⟩
      · intro k o v hmem hnone
        rw [← hp]
        exact List.mem_append.mpr (Or.inl (l1 k o v hmem hnone))
      · intro k o v hmem o2 v2 hsome
        obtain ⟨fu, w, _, hw, hmem'⟩ := l2 k o v hmem o2 v2 hsome
        exact ⟨fu, w, hw, by rw [← hp]; exact List.mem_append.mpr (Or.inl hmem')⟩
      · intro e he hkeys
        rw [← hp]
        exact List.mem_append.mpr (Or.inr (List.mem_map.mpr ⟨e, l3 e he hkeys, rfl⟩))

/-- C8: witness, the spec's own example.
`{a: number, b?: string} ∩ {a: number, c: boolean}` merges to
`{a: number, b?: string, c: boolean}`, and the theorem instantiated at this
input certifies the pass-through of `c`. -/
theorem C8_witness :
    intersectObjectPatterns 20
      [.mk (.str "a") false (.primitiveType "number"),
       .mk (.str "b") true (.primitiveType "string")] none none
      [.mk (.str "a") false (.primitiveType "number"),
       .mk (.str "c") false (.primitiveType "boolean")] none none none none [] =
      .ok (.objectPattern
        [.mk (.str "a") false (.primitiveType "number"),
         .mk (.str "b") true (.primitiveType "string"),
         .mk (.str "c") false (.primitiveType "boolean")] none none) ∧
    PropertySig.mk (.str "c") false (.primitiveType "boolean") ∈
      [PropertySig.mk (.str "a") false (.primitiveType "number"),
       PropertySig.mk (.str "b") true (.primitiveType "string"),
       PropertySig.mk (.str "c") false (.primitiveType "boolean")] := by
  have h : intersectObjectPatterns 20
      [.mk (.str "a") false (.primitiveType "number"),
       .mk (.str "b") true (.primitiveType "string")] none none
      [.mk (.str "a") false (.primitiveType "number"),
       .mk (.str "c") false (.primitiveType "boolean")] none none none none [] =
      .ok (.objectPattern
        [.mk (.str "a") false (.primitiveType "number"),
         .mk (.str "b") true (.primitiveType "string"),
         .mk (.str "c") false (.primitiveType "boolean")] none none) := by rfl
  have spec := C8_theorem 19
    [.mk (.str "a") false (.primitiveType "number"),
     .mk (.str "b") true (.primitiveType "string")]
    [.mk (.str "a") false (.primitiveType "number"),
     .mk (.str "c") false (.primitiveType "boolean")] []
    [.mk (.str "a") false (.primitiveType "number"),
     .mk (.str "b") true (.primitiveType "string"),
     .mk (.str "c") false (.primitiveType "boolean")] none none h
    (show ([PropKey.str "a", PropKey.str "b"]).Nodup by decide)
  refine ⟨h, ?_⟩
  exact spec.2.2 (.str "c", false, .primitiveType "boolean")
    (show _ ∈ ([(PropKey.str "a", (false, IR.primitiveType "number")),
      (PropKey.str "c", (false, IR.primitiveType "boolean"))] : PropMap) by simp)
    (show (PropKey.str "c") ∉ [PropKey.str "a", PropKey.str "b"] by decide)



/-! ## Claim C2: resolveAllTypes idempotence

`resolveAllTypes` is *not* idempotent on every table: an alias whose resolved
body retains a `Type` reference to another non-structural (e.g. tuple-)
recursive alias is re-expanded by a second run, because the second run's
visited set contains only the entry's own name.  It *is* a no-op (hence
idempotent) on tables in which every declaration is opaque to resolution
(interface, object-pattern alias, or builtin). -/

/-- Every declaration of the table is treated as an opaque (never inlined)
boundary by resolution: an interface, a builtin, or an alias whose value is
an object pattern. -/
def opaqueTable (t : Table) : Prop :=
  ∀ nm d, lookupTable t nm = some d →
    (isInterface d || isBuiltinType d ||
      (match d with | .alias v _ => isObjectPattern v | _ => false)) = true


/-- On an opaque table, the resolution callback returns every matched node
unchanged whenever it succeeds. -/
lemma resolveCB_fix (n : Nat) (st : ResolveState) (x : IR) (r : IR)
    (hop : opaqueTable st.namedTypes)
    (h : resolveCB n st x = .ok r) : r = x := by
  cases n with
  | zero => simp [resolveCB] at h
  | succ k =>
    cases x
    case type nm ps =>
      simp only [resolveCB] at h
      split at h
      · injection h with h'; exact h'.symm
      · split at h
        · exact absurd h (by simp)
        · next d hl =>
          have hd := hop nm d hl
          split at h
          · next hta =>
            split at h
            · injection h with h'; exact h'.symm
            · next hobj =>
              exfalso
              cases d <;> simp [isTypeAlias] at hta
              next v len =>
                simp [isInterface, isBuiltinType] at hd
                exact hobj hd
          · next hta =>
            split at h
            · injection h with h'; exact h'.symm
            · exact absurd h (by simp)
    all_goals (simp only [resolveCB] at h; injection h with h'; exact h'.symm)


/-- On an opaque table, a successful resolution traversal is the identity
(jointly over the node, list, option and property-list traversals). -/
lemma resolveType_fix_all : ∀ (n : Nat),
    (∀ ir st r, opaqueTable st.namedTypes → resolveType n ir st = .ok r → r = ir) ∧
    (∀ l st rs, opaqueTable st.namedTypes → resolveTypeList n l st = .ok rs → rs = l) ∧
    (∀ o st ro, opaqueTable st.namedTypes → resolveTypeOpt n o st = .ok ro → ro = o) ∧
    (∀ ps st rps, opaqueTable st.namedTypes → resolveTypeProps n ps st = .ok rps → rps = ps) := by
  intro n
  induction n with
  | zero =>
    refine ⟨?_, ?_, ?_, ?_⟩ <;> (intro a st b hop h; simp [resolveType, resolveTypeList, resolveTypeOpt, resolveTypeProps] at h)
  | succ k ih =>
    obtain ⟨ih1, ih2, ih3, ih4⟩ := ih
    refine ⟨?_, ?_, ?_, ?_⟩
    · intro ir st r hop h
      simp only [resolveType] at h
      split at h
      · exact resolveCB_fix k st ir r hop h
      · split at h
        · injection h with h'; exact h'.symm
        · injection h with h'; exact h'.symm
        · next nm ps hT =>
          cases hc : resolveTypeList k ps st with
          | error e => rw [hc, error_bind] at h; exact absurd h (by simp)
          | ok ps' =>
            rw [hc, ok_bind] at h
            injection h with h'
            rw [← h', ih2 ps st ps' hop hc]
        · injection h with h'; exact h'.symm
        · injection h with h'; exact h'.symm
        · next v len hT =>
          cases hc : resolveType k v st with
          | error e => rw [hc, error_bind] at h; exact absurd h (by simp)
          | ok v' =>
            rw [hc, ok_bind] at h
            injection h with h'
            rw [← h', ih1 v st v' hop hc]
        · next props s num len hT =>
          cases hc : resolveTypeProps k props st with
          | error e => rw [hc, error_bind] at h; exact absurd h (by simp)
          | ok props' =>
            rw [hc, ok_bind] at h
            cases hs : resolveTypeOpt k s st with
            | error e => rw [hs, error_bind] at h; exact absurd h (by simp)
            | ok s' =>
              rw [hs, ok_bind] at h
              cases hn : resolveTypeOpt k num st with
              | error e => rw [hn, error_bind] at h; exact absurd h (by simp)
              | ok num' =>
                rw [hn, ok_bind] at h
                injection h with h'
                rw [← h', ih4 props st props' hop hc, ih3 s st s' hop hs,
                  ih3 num st num' hop hn]
        · next props s num hT =>
          cases hc : resolveTypeProps k props st with
          | error e => rw [hc, error_bind] at h; exact absurd h (by simp)
          | ok props' =>
            rw [hc, ok_bind] at h
            cases hs : resolveTypeOpt k s st with
            | error e => rw [hs, error_bind] at h; exact absurd h (by simp)
            | ok s' =>
              rw [hs, ok_bind] at h
              cases hn : resolveTypeOpt k num st with
              | error e => rw [hn, error_bind] at h; exact absurd h (by simp)
              | ok num' =>
                rw [hn, ok_bind] at h
                injection h with h'
                rw [← h', ih4 props st props' hop hc, ih3 s st s' hop hs,
                  ih3 num st num' hop hn]
        · next nm els len hT =>
          cases hc : resolveTypeList k els st with
          | error e => rw [hc, error_bind] at h; exact absurd h (by simp)
          | ok els' =>
            rw [hc, ok_bind] at h
            injection h with h'
            rw [← h', ih2 els st els' hop hc]
        · next cs rt foi hT =>
          cases hc : resolveTypeList k cs st with
          | error e => rw [hc, error_bind] at h; exact absurd h (by simp)
          | ok cs' =>
            rw [hc, ok_bind] at h
            cases hr : resolveTypeOpt k rt st with
            | error e => rw [hr, error_bind] at h; exact absurd h (by simp)
            | ok rt' =>
              rw [hr, ok_bind] at h
              injection h with h'
              rw [← h', ih2 cs st cs' hop hc, ih3 rt st rt' hop hr]
        · next cs hT =>
          cases hc : resolveTypeList k cs st with
          | error e => rw [hc, error_bind] at h; exact absurd h (by simp)
          | ok cs' =>
            rw [hc, ok_bind] at h
            injection h with h'
            rw [← h', ih2 cs st cs' hop hc]
        · next cs hT =>
          cases hc : resolveTypeList k cs st with
          | error e => rw [hc, error_bind] at h; exact absurd h (by simp)
          | ok cs' =>
            rw [hc, ok_bind] at h
            injection h with h'
            rw [← h', ih2 cs st cs' hop hc]
        · injection h with h'; exact h'.symm
    · intro l st rs hop h
      cases l with
      | nil =>
        simp only [resolveTypeList] at h
        injection h with h'; exact h'.symm
      | cons x xs =>
        simp only [resolveTypeList] at h
        cases hc : resolveType k x st with
        | error e => rw [hc, error_bind] at h; exact absurd h (by simp)
        | ok x' =>
          rw [hc, ok_bind] at h
          cases hxs : resolveTypeList k xs st with
          | error e => rw [hxs, error_bind] at h; exact absurd h (by simp)
          | ok xs' =>
            rw [hxs, ok_bind] at h
            injection h with h'
            rw [← h', ih1 x st x' hop hc, ih2 xs st xs' hop hxs]
    · intro o st ro hop h
      cases o with
      | none =>
        simp only [resolveTypeOpt] at h
        injection h with h'; exact h'.symm
      | some x =>
        simp only [resolveTypeOpt] at h
        cases hc : resolveType k x st with
        | error e => rw [hc, error_bind] at h; exact absurd h (by simp)
        | ok x' =>
          rw [hc, ok_bind] at h
          injection h with h'
          rw [← h', ih1 x st x' hop hc]
    · intro ps st rps hop h
      cases ps with
      | nil =>
        simp only [resolveTypeProps] at h
        injection h with h'; exact h'.symm
      | cons sig xs =>
        obtain ⟨pk, po, pv⟩ := sig
        simp only [resolveTypeProps] at h
        cases hc : resolveType k pv st with
        | error e => rw [hc, error_bind] at h; exact absurd h (by simp)
        | ok pv' =>
          rw [hc, ok_bind] at h
          cases hxs : resolveTypeProps k xs st with
          | error e => rw [hxs, error_bind] at h; exact absurd h (by simp)
          | ok xs' =>
            rw [hxs, ok_bind] at h
            injection h with h'
            rw [← h', ih1 pv st pv' hop hc, ih4 xs st xs' hop hxs]


/-- On an opaque table, successful entry-wise resolution is the identity. -/
lemma resolveEntries_fix (fuel : Nat) (t : Table) (hop : opaqueTable t) :
    ∀ (l : Table) (r : Table), resolveEntries fuel t l = .ok r → r = l := by
  intro l
  induction l with
  | nil =>
    intro r h
    simp only [resolveEntries] at h
    injection h with h'
    exact h'.symm
  | cons e rest ih =>
    obtain ⟨nm, ir⟩ := e
    intro r h
    simp only [resolveEntries] at h
    cases hc : resolveSingleType fuel ir t nm with
    | error e => rw [hc, error_bind] at h; exact absurd h (by simp)
    | ok w =>
      rw [hc, ok_bind] at h
      cases hrest : resolveEntries fuel t rest with
      | error e => rw [hrest, error_bind] at h; exact absurd h (by simp)
      | ok rest' =>
        rw [hrest, ok_bind] at h
        injection h with h'
        have hw : w = ir :=
          (resolveType_fix_all fuel).1 ir ⟨t, [nm]⟩ w hop hc
        rw [← h', hw, ih rest' hrest]

/-- C2 (amended): `resolveAllTypes` is a no-op (hence idempotent) on every
table whose declarations are all opaque to resolution (interfaces,
object-pattern aliases, builtins); by `C2_counterexample` it is not
idempotent on tables with mutually recursive non-structural aliases. -/
theorem C2_theorem (fuel : Nat) (t : Table) (r : Table)
    (hop : opaqueTable t)
    (h : resolveAllTypes fuel t = .ok r) : r = t :=
  resolveEntries_fix fuel t hop t r h

/-- C2: counterexample to idempotence as claimed.  For the table
`A = B; B = [number, B]` (a non-structural alias referencing a recursive
tuple alias), the first run rewrites `A` to `[number, B]`, but a second run
on the resolved table rewrites `A` again, to `[number, [number, B]]`: the
second run is not a no-op. -/
theorem C2_counterexample :
    resolveAllTypes 30
      [("A", .alias (.type "B" []) 0),
       ("B", .alias (.tuple [.primitiveType "number", .type "B" []] none 2) 0)] =
      .ok [("A", .alias (.tuple [.primitiveType "number", .type "B" []] none 2) 0),
           ("B", .alias (.tuple [.primitiveType "number", .type "B" []] none 2) 0)] ∧
    resolveAllTypes 30
      [("A", .alias (.tuple [.primitiveType "number", .type "B" []] none 2) 0),
       ("B", .alias (.tuple [.primitiveType "number", .type "B" []] none 2) 0)] =
      .ok [("A", .alias (.tuple [.primitiveType "number",
              .tuple [.primitiveType "number", .type "B" []] none 2] none 2) 0),
           ("B", .alias (.tuple [.primitiveType "number", .type "B" []] none 2) 0)] ∧
    ([("A", IR.alias (.tuple [.primitiveType "number",
        .tuple [.primitiveType "number", .type "B" []] none 2] none 2) 0),
      ("B", IR.alias (.tuple [.primitiveType "number", .type "B" []] none 2) 0)] : Table) ≠
    [("A", .alias (.tuple [.primitiveType "number", .type "B" []] none 2) 0),
     ("B", .alias (.tuple [.primitiveType "number", .type "B" []] none 2) 0)] :=
  ⟨rfl, rfl, by simp⟩

/-- C2: witness for the amended theorem at a concrete opaque table (an
interface and an object-pattern alias referencing it). -/
theorem C2_witness :
    resolveAllTypes 10
      [("I", .interface [.mk (.str "a") false (.primitiveType "number")] none none 0),
       ("P", .alias (.objectPattern [.mk (.str "b") false (.type "I" [])] none none) 0)] =
      .ok [("I", .interface [.mk (.str "a") false (.primitiveType "number")] none none 0),
           ("P", .alias (.objectPattern [.mk (.str "b") false (.type "I" [])] none none) 0)] := by
  have hop : opaqueTable
      [("I", .interface [.mk (.str "a") false (.primitiveType "number")] none none 0),
       ("P", .alias (.objectPattern [.mk (.str "b") false (.type "I" [])] none none) 0)] := by
    intro nm d h
    simp only [lookupTable] at h
    split at h
    · injection h with h'
      rw [← h']
      rfl
    · split at h
      · injection h with h'
        rw [← h']
        rfl
      · exact absurd h (by simp)
  have hr : resolveAllTypes 10
      [("I", .interface [.mk (.str "a") false (.primitiveType "number")] none none 0),
       ("P", .alias (.objectPattern [.mk (.str "b") false (.type "I" [])] none none) 0)] =
      .ok [("I", .interface [.mk (.str "a") false (.primitiveType "number")] none none 0),
           ("P", .alias (.objectPattern [.mk (.str "b") false (.type "I" [])] none none) 0)] := by rfl
  exact hr.trans (congrArg Except.ok (C2_theorem 10 _ _ hop hr))



/-! ## Claim C10: order-independence of resolveAllTypes -/

/-- Resolution only consults the named-type table through `lookupTable`:
two tables equal as name-to-IR mappings drive every resolution function to
identical results (jointly over all traversal functions and the
callback). -/
lemma resolveType_congr_all (t1 t2 : Table)
    (hEq : ∀ nm, lookupTable t1 nm = lookupTable t2 nm) : ∀ (n : Nat),
    (∀ ir vis, resolveType n ir ⟨t1, vis⟩ = resolveType n ir ⟨t2, vis⟩) ∧
    (∀ l vis, resolveTypeList n l ⟨t1, vis⟩ = resolveTypeList n l ⟨t2, vis⟩) ∧
    (∀ o vis, resolveTypeOpt n o ⟨t1, vis⟩ = resolveTypeOpt n o ⟨t2, vis⟩) ∧
    (∀ ps vis, resolveTypeProps n ps ⟨t1, vis⟩ = resolveTypeProps n ps ⟨t2, vis⟩) ∧
    (∀ x vis, resolveCB n ⟨t1, vis⟩ x = resolveCB n ⟨t2, vis⟩ x) := by
  intro n
  induction n with
  | zero => exact ⟨fun _ _ => rfl, fun _ _ => rfl, fun _ _ => rfl, fun _ _ => rfl,
      fun _ _ => rfl⟩
  | succ k ih =>
    obtain ⟨ih1, ih2, ih3, ih4, ih5⟩ := ih
    refine ⟨?_, ?_, ?_, ?_, ?_⟩
    · intro ir vis
      simp only [resolveType]
      by_cases hT : isType ir
      · rw [if_pos hT, if_pos hT]
        exact ih5 ir vis
      · rw [if_neg hT, if_neg hT]
        cases ir <;> simp only [ih1, ih2, ih3, ih4]
    · intro l vis
      cases l with
      | nil => rfl
      | cons x xs => simp only [resolveTypeList, ih1, ih2]
    · intro o vis
      cases o with
      | none => rfl
      | some x => simp only [resolveTypeOpt, ih1]
    · intro ps vis
      cases ps with
      | nil => rfl
      | cons sig xs =>
        obtain ⟨pk, po, pv⟩ := sig
        simp only [resolveTypeProps, ih1, ih4]
    · intro x vis
      cases x
      case type nm ps =>
        simp only [resolveCB]
        by_cases hv : vis.contains nm
        · simp only [if_pos hv]
        · simp only [if_neg hv]
          rw [show lookupTable t1 nm = lookupTable t2 nm from hEq nm]
          split
          · rfl
          · next d hl =>
            by_cases ha : isTypeAlias d
            · rw [if_pos ha, if_pos ha]
              split
              · rfl
              · exact ih1 (applyTypeParameters d nm ps) (nm :: vis)
            · rw [if_neg ha, if_neg ha]
      all_goals rfl


/-- The result of entry-wise resolution, viewed as a mapping: an absent name
stays absent, and a present name maps to the resolution of its first entry
against the snapshot. -/
lemma resolveEntries_lookup (fuel : Nat) (s : Table) :
    ∀ (l r : Table), resolveEntries fuel s l = .ok r → ∀ nm,
      (lookupTable l nm = none → lookupTable r nm = none) ∧
      (∀ ir, lookupTable l nm = some ir →
        ∃ w, lookupTable r nm = some w ∧
          resolveSingleType fuel ir s nm = .ok w) := by
  intro l
  induction l with
  | nil =>
    intro r h nm
    simp only [resolveEntries] at h
    injection h with h'
    subst h'
    exact ⟨fun _ => rfl, fun ir hsome => by simp [lookupTable] at hsome⟩
  | cons e rest ih =>
    obtain ⟨enm, eir⟩ := e
    intro r h nm
    simp only [resolveEntries] at h
    cases hc : resolveSingleType fuel eir s enm with
    | error err => rw [hc, error_bind] at h; exact absurd h (by simp)
    | ok w =>
      rw [hc, ok_bind] at h
      cases hrest : resolveEntries fuel s rest with
      | error err => rw [hrest, error_bind] at h; exact absurd h (by simp)
      | ok rest' =>
        rw [hrest, ok_bind] at h
        injection h with h'
        subst h'
        constructor
        · intro hnone
          simp only [lookupTable] at hnone ⊢
          by_cases he : enm = nm
          · rw [if_pos he] at hnone
            exact absurd hnone (by simp)
          · rw [if_neg he] at hnone ⊢
            exact (ih rest' hrest nm).1 hnone
        · intro ir hsome
          simp only [lookupTable] at hsome ⊢
          by_cases he : enm = nm
          · rw [if_pos he] at hsome ⊢
            injection hsome with hsome'
            subst hsome'
            exact ⟨w, rfl, he ▸ hc⟩
          · rw [if_neg he] at hsome ⊢
            exact (ih rest' hrest nm).2 ir hsome

/-- C10: the result of `resolveAllTypes` is independent of entry order:
for any two tables equal as name-to-IR mappings (whatever their insertion
order), the resolved tables are equal as name-to-IR mappings — every
entry is resolved against the pre-pass snapshot, never against partially
mutated state. -/
theorem C10_theorem (fuel : Nat) (t1 t2 r1 r2 : Table)
    (hEq : ∀ nm, lookupTable t1 nm = lookupTable t2 nm)
    (h1 : resolveAllTypes fuel t1 = .ok r1)
    (h2 : resolveAllTypes fuel t2 = .ok r2) :
    ∀ nm, lookupTable r1 nm = lookupTable r2 nm := by
  intro nm
  cases hl : lookupTable t1 nm with
  | none =>
    have hl2 : lookupTable t2 nm = none := (hEq nm) ▸ hl
    rw [(resolveEntries_lookup fuel t1 t1 r1 h1 nm).1 hl,
      (resolveEntries_lookup fuel t2 t2 r2 h2 nm).1 hl2]
  | some ir =>
    have hl2 : lookupTable t2 nm = some ir := (hEq nm) ▸ hl
    obtain ⟨w1, hw1, hres1⟩ := (resolveEntries_lookup fuel t1 t1 r1 h1 nm).2 ir hl
    obtain ⟨w2, hw2, hres2⟩ := (resolveEntries_lookup fuel t2 t2 r2 h2 nm).2 ir hl2
    have hcongr : resolveSingleType fuel ir t1 nm = resolveSingleType fuel ir t2 nm :=
      (resolveType_congr_all t1 t2 hEq fuel).1 ir [nm]
    have hww : Except.ok (ε := Err) w1 = .ok w2 :=
      hres1.symm.trans (hcongr.trans hres2)
    injection hww with hww'
    rw [hw1, hw2, hww']

/-- C10: witness at the two-entry table `A = B; B = number` listed in both
orders: both runs resolve `A` to `number`. -/
theorem C10_witness :
    lookupTable [("A", IR.alias (.primitiveType "number") 0),
      ("B", IR.alias (.primitiveType "number") 0)] "A" =
    lookupTable [("B", IR.alias (.primitiveType "number") 0),
      ("A", IR.alias (.primitiveType "number") 0)] "A" := by
  have hEq : ∀ nm,
      lookupTable [("A", IR.alias (.type "B" []) 0),
        ("B", IR.alias (.primitiveType "number") 0)] nm =
      lookupTable [("B", IR.alias (.primitiveType "number") 0),
        ("A", IR.alias (.type "B" []) 0)] nm := by
    intro nm
    by_cases hA : ("A" : String) = nm
    · rw [← hA]
      rfl
    · by_cases hB : ("B" : String) = nm
      · rw [← hB]
        rfl
      · simp [lookupTable, hA, hB]
  exact C10_theorem 10
    [("A", IR.alias (.type "B" []) 0), ("B", IR.alias (.primitiveType "number") 0)]
    [("B", IR.alias (.primitiveType "number") 0), ("A", IR.alias (.type "B" []) 0)]
    [("A", IR.alias (.primitiveType "number") 0), ("B", IR.alias (.primitiveType "number") 0)]
    [("B", IR.alias (.primitiveType "number") 0), ("A", IR.alias (.primitiveType "number") 0)]
    hEq (by rfl) (by rfl) "A"

/-! ## Claims C3 and C4: instantiation-pass cycle handling and memoization

Supporting lemmas: pointwise properties of the stats map, the memo, the
`markCircular` post-pass, and two simultaneous fuel inductions over the
five mutually recursive traversal functions of the instantiation pass. -/

lemma statsGet_statsSet_self (l : TypeStats) (k : String) (v : Nat) :
    statsGet (statsSet l k v) k = some v := by
  induction l with
  | nil => simp [statsSet, statsGet]
  | cons e rest ih =>
    obtain ⟨ek, ev⟩ := e
    by_cases h : ek = k
    · simp [statsSet, statsGet, h]
    · simp [statsSet, statsGet, h, ih]

lemma statsGet_statsSet_ne (l : TypeStats) (k k' : String) (v : Nat)
    (hne : k' ≠ k) : statsGet (statsSet l k v) k' = statsGet l k' := by
  have hkk : k ≠ k' := fun h => hne h.symm
  induction l with
  | nil => simp [statsSet, statsGet, hkk]
  | cons e rest ih =>
    obtain ⟨ek, ev⟩ := e
    by_cases h : ek = k
    · subst h
      simp [statsSet, statsGet, hkk]
    · simp [statsSet, statsGet, h, ih]

/-- All usage counters in a stats map are at least one. -/
def statsPos (l : TypeStats) : Prop := ∀ k v, (k, v) ∈ l → 1 ≤ v

lemma mem_statsSet (l : TypeStats) (k : String) (v : Nat) :
    ∀ e ∈ statsSet l k v, e ∈ l ∨ e = (k, v) := by
  induction l with
  | nil => intro e he; simp [statsSet] at he; right; exact he
  | cons x rest ih =>
    obtain ⟨xk, xv⟩ := x
    intro e he
    by_cases h : xk = k
    · simp only [statsSet, if_pos h] at he
      rcases List.mem_cons.mp he with he1 | he2
      · right; rw [he1, h]
      · left; exact List.mem_cons.mpr (Or.inr he2)
    · simp only [statsSet, if_neg h] at he
      rcases List.mem_cons.mp he with he1 | he2
      · left; exact List.mem_cons.mpr (Or.inl he1)
      · rcases ih e he2 with h1 | h2
        · left; exact List.mem_cons.mpr (Or.inr h1)
        · right; exact h2

lemma statsPos_statsSet (l : TypeStats) (k : String) (v : Nat)
    (hl : statsPos l) (hv : 1 ≤ v) : statsPos (statsSet l k v) := by
  intro k' v' hmem
  rcases mem_statsSet l k v _ hmem with h | h
  · exact hl k' v' h
  · injection h with h1 h2
    rw [h2]; exact hv

lemma statsGet_mem (l : TypeStats) (k : String) (v : Nat)
    (h : statsGet l k = some v) : (k, v) ∈ l := by
  induction l with
  | nil => simp [statsGet] at h
  | cons e rest ih =>
    obtain ⟨ek, ev⟩ := e
    by_cases he : ek = k
    · simp only [statsGet, if_pos he] at h
      injection h with h'
      subst he; subst h'
      exact List.mem_cons_self _ _
    · simp only [statsGet, if_neg he] at h
      exact List.mem_cons.mpr (Or.inr (ih h))

lemma mem_statsGet (l : TypeStats) (k : String) (v : Nat)
    (h : (k, v) ∈ l) : ∃ v', statsGet l k = some v' ∧ (k, v') ∈ l := by
  induction l with
  | nil => simp at h
  | cons e rest ih =>
    obtain ⟨ek, ev⟩ := e
    by_cases he : ek = k
    · subst he
      exact ⟨ev, by simp [statsGet], List.mem_cons_self _ _⟩
    · rcases List.mem_cons.mp h with h1 | h2
      · exfalso; apply he; cases h1; rfl
      · obtain ⟨v', hv', hm⟩ := ih h2
        exact ⟨v', by simp [statsGet, he, hv'], List.mem_cons.mpr (Or.inr hm)⟩

lemma statsPos_incrementTypeCount (l : TypeStats) (k : String)
    (hl : statsPos l) : statsPos (incrementTypeCount l k) := by
  unfold incrementTypeCount
  cases h : statsGet l k with
  | none => exact statsPos_statsSet l k 1 hl (by omega)
  | some v => exact statsPos_statsSet l k (v + 1) hl (by omega)

lemma statsGet_incrementTypeCount_self (l : TypeStats) (k : String) :
    ∃ b, statsGet (incrementTypeCount l k) k = some b ∧ 1 ≤ b ∧
      (∀ c, statsGet l k = some c → b = c + 1) := by
  unfold incrementTypeCount
  cases h : statsGet l k with
  | none =>
    refine ⟨1, statsGet_statsSet_self l k 1, by omega, fun c hc => ?_⟩
    exact absurd hc (by simp)
  | some v =>
    refine ⟨v + 1, statsGet_statsSet_self l k (v + 1), by omega, fun c hc => ?_⟩
    injection hc with hc2
    rw [hc2]

lemma statsPos_addStatsGo (toAdd : TypeStats) (hpos : statsPos toAdd) :
    ∀ (sub base : TypeStats), (∀ e ∈ sub, e ∈ toAdd) → statsPos base →
    statsPos (addStatsGo toAdd base sub) := by
  intro sub
  induction sub with
  | nil => intro base _ hb; exact hb
  | cons e rest ih =>
    obtain ⟨k1, v1⟩ := e
    intro base hsub hb
    have hv1 : 1 ≤ v1 := hpos k1 v1 (hsub _ (List.mem_cons_self _ _))
    simp only [addStatsGo]
    apply ih _ (fun e he => hsub e (List.mem_cons.mpr (Or.inr he)))
    split
    · exact statsPos_statsSet _ _ _ hb (by omega)
    · exact statsPos_statsSet _ _ _ hb hv1

lemma statsPos_addStats (base toAdd : TypeStats) (hb : statsPos base)
    (ha : statsPos toAdd) : statsPos (addStats base toAdd) :=
  statsPos_addStatsGo toAdd ha toAdd base (fun _ he => he) hb

lemma addStatsGo_bound (toAdd : TypeStats) (hpos : statsPos toAdd)
    (bound : Nat) (hbound : bound ≤ 2) :
    ∀ (sub base : TypeStats) (k : String) (b : Nat), (∀ e ∈ sub, e ∈ toAdd) →
    statsGet base k = some b → bound ≤ b →
    ∃ c, statsGet (addStatsGo toAdd base sub) k = some c ∧ bound ≤ c := by
  intro sub
  induction sub with
  | nil => intro base k b _ hget hge; exact ⟨b, hget, hge⟩
  | cons e rest ih =>
    obtain ⟨k1, v1⟩ := e
    intro base k b hsub hget hge
    have hv1 : 1 ≤ v1 := hpos k1 v1 (hsub _ (List.mem_cons_self _ _))
    simp only [addStatsGo]
    by_cases hk : k1 = k
    · subst hk
      rcases mem_statsGet toAdd k1 v1 (hsub _ (List.mem_cons_self _ _)) with
        ⟨v', hv', hm'⟩
      have hv'1 : 1 ≤ v' := hpos _ _ hm'
      split
      · rw [hv']
        simp only [Option.getD_some]
        exact ih _ _ _ (fun e he => hsub e (List.mem_cons.mpr (Or.inr he)))
          (statsGet_statsSet_self _ _ _) (by omega)
      · next hcond => exact absurd (by rw [hget]; rfl) hcond
    · have hne : k ≠ k1 := fun h => hk h.symm
      split
      all_goals
        exact ih _ _ _ (fun e he => hsub e (List.mem_cons.mpr (Or.inr he)))
          (by rw [statsGet_statsSet_ne _ _ _ _ hne]; exact hget) hge

lemma addStats_bound (base toAdd : TypeStats) (k : String) (b bound : Nat)
    (hpos : statsPos toAdd) (hbound : bound ≤ 2)
    (hget : statsGet base k = some b) (hge : bound ≤ b) :
    ∃ c, statsGet (addStats base toAdd) k = some c ∧ bound ≤ c :=
  addStatsGo_bound toAdd hpos bound hbound toAdd base k b (fun _ he => he)
    hget hge

lemma memoGet_memoSet_self (m : Memo) (k : String) (v : TypeInfo) :
    memoGet (memoSet m k v) k = some v := by
  induction m with
  | nil => simp [memoSet, memoGet]
  | cons e rest ih =>
    obtain ⟨ek, ev⟩ := e
    by_cases h : ek = k
    · simp [memoSet, memoGet, h]
    · simp [memoSet, memoGet, h, ih]

lemma memoGet_memoSet_ne (m : Memo) (k k' : String) (v : TypeInfo)
    (hne : k' ≠ k) : memoGet (memoSet m k v) k' = memoGet m k' := by
  have hkk : k ≠ k' := fun h => hne h.symm
  induction m with
  | nil => simp [memoSet, memoGet, hkk]
  | cons e rest ih =>
    obtain ⟨ek, ev⟩ := e
    by_cases h : ek = k
    · subst h
      simp [memoSet, memoGet, hkk]
    · simp [memoSet, memoGet, h, ih]

lemma mem_memoSet (m : Memo) (k : String) (v : TypeInfo) :
    ∀ e ∈ memoSet m k v, e ∈ m ∨ e = (k, v) := by
  induction m with
  | nil => intro e he; simp [memoSet] at he; right; exact he
  | cons x rest ih =>
    obtain ⟨xk, xv⟩ := x
    intro e he
    by_cases h : xk = k
    · simp only [memoSet, if_pos h] at he
      rcases List.mem_cons.mp he with he1 | he2
      · right; rw [he1, h]
      · left; exact List.mem_cons.mpr (Or.inr he2)
    · simp only [memoSet, if_neg h] at he
      rcases List.mem_cons.mp he with he1 | he2
      · left; exact List.mem_cons.mpr (Or.inl he1)
      · rcases ih e he2 with h1 | h2
        · left; exact List.mem_cons.mpr (Or.inr h1)
        · right; exact h2

lemma memoGet_mem (m : Memo) (k : String) (v : TypeInfo)
    (h : memoGet m k = some v) : (k, v) ∈ m := by
  induction m with
  | nil => simp [memoGet] at h
  | cons e rest ih =>
    obtain ⟨ek, ev⟩ := e
    by_cases he : ek = k
    · simp only [memoGet, if_pos he] at h
      injection h with h'
      subst he; subst h'
      exact List.mem_cons_self _ _
    · simp only [memoGet, if_neg he] at h
      exact List.mem_cons.mpr (Or.inr (ih h))

lemma bind_ok_elim {α β : Type} (x : Except Err α) (f : α → Except Err β) (b : β)
    (h : x >>= f = .ok b) : ∃ a, x = .ok a ∧ f a = .ok b := by
  cases x with
  | error e => rw [error_bind] at h; exact absurd h (by simp)
  | ok a => rw [ok_bind] at h; exact ⟨a, rfl, h⟩

/-- The state invariant of the instantiation pass: every usage counter in
the running statistics and in every memo entry is at least one. -/
def InstInv (st : InstState) : Prop :=
  statsPos st.typeStats ∧ ∀ p ∈ st.instantiatedTypes, statsPos p.2.typeStats

lemma patch_inv : ∀ (n : Nat),
    (∀ ir st cs r st', patchIR n ir st cs = .ok (r, st') → InstInv st → InstInv st') ∧
    (∀ l st cs rs st', patchIRList n l st cs = .ok (rs, st') → InstInv st → InstInv st') ∧
    (∀ o st cs ro st', patchIROpt n o st cs = .ok (ro, st') → InstInv st → InstInv st') ∧
    (∀ ps st cs rp st', patchIRProps n ps st cs = .ok (rp, st') → InstInv st → InstInv st') ∧
    (∀ cs ir st r st', patchCB n cs ir st = .ok (r, st') → InstInv st → InstInv st') := by
  intro n
  induction n with
  | zero =>
    refine ⟨?_, ?_, ?_, ?_, ?_⟩ <;>
      (intro a b c d e h hInv;
       simp [patchIR, patchIRList, patchIROpt, patchIRProps, patchCB] at h)
  | succ k ih =>
    obtain ⟨ih1, ih2, ih3, ih4, ih5⟩ := ih
    refine ⟨?_, ?_, ?_, ?_, ?_⟩
    · intro ir st cs r st' h hInv
      simp only [patchIR] at h
      split at h
      · exact ih5 cs ir st r st' h hInv
      · split at h
        · injection h with h1
          injection h1 with h2 h3
          rw [← h3]; exact hInv
        · injection h with h1
          injection h1 with h2 h3
          rw [← h3]; exact hInv
        · next nm ps hT =>
          obtain ⟨⟨x1, s1⟩, hc, h2⟩ := bind_ok_elim _ _ _ h
          injection h2 with h3
          injection h3 with h4 h5
          rw [← h5]; exact ih2 ps st cs x1 s1 hc hInv
        · injection h with h1
          injection h1 with h2 h3
          rw [← h3]; exact hInv
        · injection h with h1
          injection h1 with h2 h3
          rw [← h3]; exact hInv
        · next v len hT =>
          obtain ⟨⟨x1, s1⟩, hc, h2⟩ := bind_ok_elim _ _ _ h
          injection h2 with h3
          injection h3 with h4 h5
          rw [← h5]; exact ih1 v st cs x1 s1 hc hInv
        · next props s num len hT =>
          obtain ⟨⟨x1, s1⟩, hc, h2⟩ := bind_ok_elim _ _ _ h
          obtain ⟨⟨x2, s2⟩, hc2, h3⟩ := bind_ok_elim _ _ _ h2
          obtain ⟨⟨x3, s3⟩, hc3, h4⟩ := bind_ok_elim _ _ _ h3
          injection h4 with h5
          injection h5 with h6 h7
          rw [← h7]
          exact ih3 num s2 cs x3 s3 hc3
            (ih3 s s1 cs x2 s2 hc2 (ih4 props st cs x1 s1 hc hInv))
        · next props s num hT =>
          obtain ⟨⟨x1, s1⟩, hc, h2⟩ := bind_ok_elim _ _ _ h
          obtain ⟨⟨x2, s2⟩, hc2, h3⟩ := bind_ok_elim _ _ _ h2
          obtain ⟨⟨x3, s3⟩, hc3, h4⟩ := bind_ok_elim _ _ _ h3
          injection h4 with h5
          injection h5 with h6 h7
          rw [← h7]
          exact ih3 num s2 cs x3 s3 hc3
            (ih3 s s1 cs x2 s2 hc2 (ih4 props st cs x1 s1 hc hInv))
        · next nm els len hT =>
          obtain ⟨⟨x1, s1⟩, hc, h2⟩ := bind_ok_elim _ _ _ h
          injection h2 with h3
          injection h3 with h4 h5
          rw [← h5]; exact ih2 els st cs x1 s1 hc hInv
        · next c2 r2 f2 hT =>
          obtain ⟨⟨x1, s1⟩, hc, h2⟩ := bind_ok_elim _ _ _ h
          obtain ⟨⟨x2, s2⟩, hc2, h3⟩ := bind_ok_elim _ _ _ h2
          injection h3 with h4
          injection h4 with h5 h6
          rw [← h6]
          exact ih3 r2 s1 cs x2 s2 hc2 (ih2 c2 st cs x1 s1 hc hInv)
        · next cs2 hT =>
          obtain ⟨⟨x1, s1⟩, hc, h2⟩ := bind_ok_elim _ _ _ h
          injection h2 with h3
          injection h3 with h4 h5
          rw [← h5]; exact ih2 cs2 st cs x1 s1 hc hInv
        · next cs2 hT =>
          obtain ⟨⟨x1, s1⟩, hc, h2⟩ := bind_ok_elim _ _ _ h
          injection h2 with h3
          injection h3 with h4 h5
          rw [← h5]; exact ih2 cs2 st cs x1 s1 hc hInv
        · injection h with h1
          injection h1 with h2 h3
          rw [← h3]; exact hInv
    · intro l st cs rs st' h hInv
      cases l with
      | nil =>
        simp only [patchIRList] at h
        injection h with h1
        injection h1 with h2 h3
        rw [← h3]; exact hInv
      | cons x xs =>
        simp only [patchIRList] at h
        obtain ⟨⟨x1, s1⟩, hc, h2⟩ := bind_ok_elim _ _ _ h
        obtain ⟨⟨x2, s2⟩, hc2, h3⟩ := bind_ok_elim _ _ _ h2
        injection h3 with h4
        injection h4 with h5 h6
        rw [← h6]
        exact ih2 xs s1 cs x2 s2 hc2 (ih1 x st cs x1 s1 hc hInv)
    · intro o st cs ro st' h hInv
      cases o with
      | none =>
        simp only [patchIROpt] at h
        injection h with h1
        injection h1 with h2 h3
        rw [← h3]; exact hInv
      | some x =>
        simp only [patchIROpt] at h
        obtain ⟨⟨x1, s1⟩, hc, h2⟩ := bind_ok_elim _ _ _ h
        injection h2 with h3
        injection h3 with h4 h5
        rw [← h5]; exact ih1 x st cs x1 s1 hc hInv
    · intro ps st cs rp st' h hInv
      cases ps with
      | nil =>
        simp only [patchIRProps] at h
        injection h with h1
        injection h1 with h2 h3
        rw [← h3]; exact hInv
      | cons p rest =>
        obtain ⟨pk, po, pv⟩ := p
        simp only [patchIRProps] at h
        obtain ⟨⟨x1, s1⟩, hc, h2⟩ := bind_ok_elim _ _ _ h
        obtain ⟨⟨x2, s2⟩, hc2, h3⟩ := bind_ok_elim _ _ _ h2
        injection h3 with h4
        injection h4 with h5 h6
        rw [← h6]
        exact ih4 rest s1 cs x2 s2 hc2 (ih1 pv st cs x1 s1 hc hInv)
    · intro cs ir st r st' h hInv
      cases ir
      case type nm ps =>
        simp only [patchCB] at h
        split at h
        · injection h with h1
          injection h1 with h2 h3
          rw [← h3]
          exact ⟨statsPos_incrementTypeCount _ _ hInv.1, hInv.2⟩
        · split at h
          · next pr hmemo =>
            injection h with h1
            injection h1 with h2 h3
            rw [← h3]
            refine ⟨statsPos_addStats _ _
              (statsPos_incrementTypeCount _ _ hInv.1) ?_, hInv.2⟩
            exact hInv.2 _ (memoGet_mem _ _ _ hmemo)
          · next hmemo =>
            split at h
            · exact absurd h (by simp)
            · next refIR hlook =>
              split at h
              · exact absurd h (by simp)
              · obtain ⟨⟨instantiated, stRec⟩, hrec, h2⟩ := bind_ok_elim _ _ _ h
                have invRec : InstInv stRec := by
                  refine ih1 _ _ _ _ _ hrec ⟨?_, ?_⟩
                  · intro a b hm; simp at hm
                  · exact hInv.2
                injection h2 with h3
                injection h3 with h4 h5
                rw [← h5]
                refine ⟨statsPos_addStats _ _
                  (statsPos_incrementTypeCount _ _ hInv.1) invRec.1, ?_⟩
                intro p hp
                rcases mem_memoSet _ _ _ p hp with hin | heq
                · exact invRec.2 p hin
                · rw [heq]
                  exact invRec.1
      all_goals
        (simp only [patchCB] at h;
         injection h with h1;
         injection h1 with h2 h3;
         rw [← h3]; exact hInv)

lemma patch_protected : ∀ (n : Nat),
    (∀ ir st cs r st' q, patchIR n ir st cs = .ok (r, st') →
      cs.contains q = true → memoGet st.instantiatedTypes q = none →
      memoGet st'.instantiatedTypes q = none ∧
      st'.newInstantiatedTypes.count q = st.newInstantiatedTypes.count q) ∧
    (∀ l st cs rs st' q, patchIRList n l st cs = .ok (rs, st') →
      cs.contains q = true → memoGet st.instantiatedTypes q = none →
      memoGet st'.instantiatedTypes q = none ∧
      st'.newInstantiatedTypes.count q = st.newInstantiatedTypes.count q) ∧
    (∀ o st cs ro st' q, patchIROpt n o st cs = .ok (ro, st') →
      cs.contains q = true → memoGet st.instantiatedTypes q = none →
      memoGet st'.instantiatedTypes q = none ∧
      st'.newInstantiatedTypes.count q = st.newInstantiatedTypes.count q) ∧
    (∀ ps st cs rp st' q, patchIRProps n ps st cs = .ok (rp, st') →
      cs.contains q = true → memoGet st.instantiatedTypes q = none →
      memoGet st'.instantiatedTypes q = none ∧
      st'.newInstantiatedTypes.count q = st.newInstantiatedTypes.count q) ∧
    (∀ cs ir st r st' q, patchCB n cs ir st = .ok (r, st') →
      cs.contains q = true → memoGet st.instantiatedTypes q = none →
      memoGet st'.instantiatedTypes q = none ∧
      st'.newInstantiatedTypes.count q = st.newInstantiatedTypes.count q) := by
  intro n
  induction n with
  | zero =>
    refine ⟨?_, ?_, ?_, ?_, ?_⟩ <;>
      (intro a b c d e q h hq hm;
       simp [patchIR, patchIRList, patchIROpt, patchIRProps, patchCB] at h)
  | succ k ih =>
    obtain ⟨ih1, ih2, ih3, ih4, ih5⟩ := ih
    refine ⟨?_, ?_, ?_, ?_, ?_⟩
    · intro ir st cs r st' q h hq hm
      simp only [patchIR] at h
      split at h
      · exact ih5 cs ir st r st' q h hq hm
      · split at h
        · injection h with h1
          injection h1 with h2 h3
          rw [← h3]; exact ⟨hm, rfl⟩
        · injection h with h1
          injection h1 with h2 h3
          rw [← h3]; exact ⟨hm, rfl⟩
        · next nm ps hT =>
          obtain ⟨⟨x1, s1⟩, hc, h2⟩ := bind_ok_elim _ _ _ h
          injection h2 with h3
          injection h3 with h4 h5
          rw [← h5]; exact ih2 ps st cs x1 s1 q hc hq hm
        · injection h with h1
          injection h1 with h2 h3
          rw [← h3]; exact ⟨hm, rfl⟩
        · injection h with h1
          injection h1 with h2 h3
          rw [← h3]; exact ⟨hm, rfl⟩
        · next v len hT =>
          obtain ⟨⟨x1, s1⟩, hc, h2⟩ := bind_ok_elim _ _ _ h
          injection h2 with h3
          injection h3 with h4 h5
          rw [← h5]; exact ih1 v st cs x1 s1 q hc hq hm
        · next props s num len hT =>
          obtain ⟨⟨x1, s1⟩, hc, h2⟩ := bind_ok_elim _ _ _ h
          obtain ⟨⟨x2, s2⟩, hc2, h3⟩ := bind_ok_elim _ _ _ h2
          obtain ⟨⟨x3, s3⟩, hc3, h4⟩ := bind_ok_elim _ _ _ h3
          injection h4 with h5
          injection h5 with h6 h7
          rw [← h7]
          obtain ⟨m1, c1⟩ := ih4 props st cs x1 s1 q hc hq hm
          obtain ⟨m2, c2⟩ := ih3 s s1 cs x2 s2 q hc2 hq m1
          obtain ⟨m3, c3⟩ := ih3 num s2 cs x3 s3 q hc3 hq m2
          exact ⟨m3, by rw [c3, c2, c1]⟩
        · next props s num hT =>
          obtain ⟨⟨x1, s1⟩, hc, h2⟩ := bind_ok_elim _ _ _ h
          obtain ⟨⟨x2, s2⟩, hc2, h3⟩ := bind_ok_elim _ _ _ h2
          obtain ⟨⟨x3, s3⟩, hc3, h4⟩ := bind_ok_elim _ _ _ h3
          injection h4 with h5
          injection h5 with h6 h7
          rw [← h7]
          obtain ⟨m1, c1⟩ := ih4 props st cs x1 s1 q hc hq hm
          obtain ⟨m2, c2⟩ := ih3 s s1 cs x2 s2 q hc2 hq m1
          obtain ⟨m3, c3⟩ := ih3 num s2 cs x3 s3 q hc3 hq m2
          exact ⟨m3, by rw [c3, c2, c1]⟩
        · next nm els len hT =>
          obtain ⟨⟨x1, s1⟩, hc, h2⟩ := bind_ok_elim _ _ _ h
          injection h2 with h3
          injection h3 with h4 h5
          rw [← h5]; exact ih2 els st cs x1 s1 q hc hq hm
        · next c2 r2 f2 hT =>
          obtain ⟨⟨x1, s1⟩, hc, h2⟩ := bind_ok_elim _ _ _ h
          obtain ⟨⟨x2, s2⟩, hc2, h3⟩ := bind_ok_elim _ _ _ h2
          injection h3 with h4
          injection h4 with h5 h6
          rw [← h6]
          obtain ⟨m1, c1⟩ := ih2 c2 st cs x1 s1 q hc hq hm
          obtain ⟨m2, c2'⟩ := ih3 r2 s1 cs x2 s2 q hc2 hq m1
          exact ⟨m2, by rw [c2', c1]⟩
        · next cs2 hT =>
          obtain ⟨⟨x1, s1⟩, hc, h2⟩ := bind_ok_elim _ _ _ h
          injection h2 with h3
          injection h3 with h4 h5
          rw [← h5]; exact ih2 cs2 st cs x1 s1 q hc hq hm
        · next cs2 hT =>
          obtain ⟨⟨x1, s1⟩, hc, h2⟩ := bind_ok_elim _ _ _ h
          injection h2 with h3
          injection h3 with h4 h5
          rw [← h5]; exact ih2 cs2 st cs x1 s1 q hc hq hm
        · injection h with h1
          injection h1 with h2 h3
          rw [← h3]; exact ⟨hm, rfl⟩
    · intro l st cs rs st' q h hq hm
      cases l with
      | nil =>
        simp only [patchIRList] at h
        injection h with h1
        injection h1 with h2 h3
        rw [← h3]; exact ⟨hm, rfl⟩
      | cons x xs =>
        simp only [patchIRList] at h
        obtain ⟨⟨x1, s1⟩, hc, h2⟩ := bind_ok_elim _ _ _ h
        obtain ⟨⟨x2, s2⟩, hc2, h3⟩ := bind_ok_elim _ _ _ h2
        injection h3 with h4
        injection h4 with h5 h6
        rw [← h6]
        obtain ⟨m1, c1⟩ := ih1 x st cs x1 s1 q hc hq hm
        obtain ⟨m2, c2⟩ := ih2 xs s1 cs x2 s2 q hc2 hq m1
        exact ⟨m2, by rw [c2, c1]⟩
    · intro o st cs ro st' q h hq hm
      cases o with
      | none =>
        simp only [patchIROpt] at h
        injection h with h1
        injection h1 with h2 h3
        rw [← h3]; exact ⟨hm, rfl⟩
      | some x =>
        simp only [patchIROpt] at h
        obtain ⟨⟨x1, s1⟩, hc, h2⟩ := bind_ok_elim _ _ _ h
        injection h2 with h3
        injection h3 with h4 h5
        rw [← h5]; exact ih1 x st cs x1 s1 q hc hq hm
    · intro ps st cs rp st' q h hq hm
      cases ps with
      | nil =>
        simp only [patchIRProps] at h
        injection h with h1
        injection h1 with h2 h3
        rw [← h3]; exact ⟨hm, rfl⟩
      | cons p rest =>
        obtain ⟨pk, po, pv⟩ := p
        simp only [patchIRProps] at h
        obtain ⟨⟨x1, s1⟩, hc, h2⟩ := bind_ok_elim _ _ _ h
        obtain ⟨⟨x2, s2⟩, hc2, h3⟩ := bind_ok_elim _ _ _ h2
        injection h3 with h4
        injection h4 with h5 h6
        rw [← h6]
        obtain ⟨m1, c1⟩ := ih1 pv st cs x1 s1 q hc hq hm
        obtain ⟨m2, c2⟩ := ih4 rest s1 cs x2 s2 q hc2 hq m1
        exact ⟨m2, by rw [c2, c1]⟩
    · intro cs ir st r st' q h hq hm
      cases ir
      case type nm ps =>
        simp only [patchCB] at h
        split at h
        · injection h with h1
          injection h1 with h2 h3
          rw [← h3]; exact ⟨hm, rfl⟩
        · next hcont =>
          split at h
          · next pr hmemo =>
            injection h with h1
            injection h1 with h2 h3
            rw [← h3]; exact ⟨hm, rfl⟩
          · next hmemo =>
            split at h
            · exact absurd h (by simp)
            · next refIR hlook =>
              split at h
              · exact absurd h (by simp)
              · obtain ⟨⟨instantiated, stRec⟩, hrec, h2⟩ := bind_ok_elim _ _ _ h
                have hne : getTypeKey nm ps ≠ q := by
                  intro he
                  rw [he] at hcont
                  exact hcont hq
                have hq' : ((getTypeKey nm ps) :: cs).contains q = true := by
                  rw [List.contains_cons, hq, Bool.or_true]
                obtain ⟨m1, c1⟩ := ih1 _ _ _ _ _ q hrec hq' hm
                injection h2 with h3
                injection h3 with h4 h5
                rw [← h5]
                constructor
                · rw [memoGet_memoSet_ne _ _ _ _ (Ne.symm hne)]
                  exact m1
                · rw [List.count_append, c1]
                  simp [List.count_cons, Ne.symm hne]
      all_goals
        (simp only [patchCB] at h;
         injection h with h1;
         injection h1 with h2 h3;
         rw [← h3]; exact ⟨hm, rfl⟩)

lemma markCircular_preserves (l : List String) :
    ∀ (m m' : Memo) (x : String) (i : TypeInfo),
    markCircular l m = .ok m' → memoGet m x = some i → i.circular = true →
    ∃ i', memoGet m' x = some i' ∧ i'.circular = true := by
  induction l with
  | nil =>
    intro m m' x i h hget hcirc
    simp only [markCircular] at h
    injection h with h1
    rw [← h1]
    exact ⟨i, hget, hcirc⟩
  | cons a rest ih =>
    intro m m' x i h hget hcirc
    simp only [markCircular] at h
    split at h
    · exact absurd h (by simp)
    · next ti hti =>
      by_cases hx : x = a
      · subst hx
        exact ih _ _ x { ti with circular := true } h
          (memoGet_memoSet_self m x _) rfl
      · exact ih _ _ x i h
          (by rw [memoGet_memoSet_ne _ _ _ _ hx]; exact hget) hcirc

lemma markCircular_marks (l : List String) :
    ∀ (m m' : Memo), markCircular l m = .ok m' →
    ∀ x ∈ l, ∃ i, memoGet m' x = some i ∧ i.circular = true := by
  induction l with
  | nil => intro m m' h x hx; simp at hx
  | cons a rest ih =>
    intro m m' h x hx
    simp only [markCircular] at h
    split at h
    · exact absurd h (by simp)
    · next ti hti =>
      rcases List.mem_cons.mp hx with hxa | hxr
      · subst hxa
        exact markCircular_preserves rest _ _ x { ti with circular := true } h
          (memoGet_memoSet_self m x _) rfl
      · exact ih _ _ h x hxr

/-- The self-referential generic declaration `Node<T> = {value: T,
next: Node<T>}` of the spec's cycle example. -/
def nodeTable : Table :=
  [("Node", .alias (.objectPattern
      [.mk (.str "value") false (.genericType 0),
       .mk (.str "next") false (.type "Node" [.genericType 0])] none none) 1)]

/-- C3: cycle termination and circular marking.  (1) Whenever the canonical
key of a `Type` reference is already on the call-ancestry path, the
instantiation callback records it as circular-pending and returns an
`InstantiatedType` indirection immediately, without recursing into the
declaration; (2) after a completed `instantiate` run, every key recorded as
circular-pending has its memo entry marked `circular = true`; (3) in
particular, instantiating `Node<number>` against the self-referential
declaration `Node<T> = {value: T, next: Node<T>}` terminates successfully
and leaves the memo entry of `Node<number>`'s key marked circular. -/
theorem C3_theorem :
    (∀ (n : Nat) (cs : List String) (nm : String) (ps : List IR) (st : InstState),
      cs.contains (getTypeKey nm ps) = true →
      patchCB (n + 1) cs (.type nm ps) st =
        .ok (.instantiatedType (getTypeKey nm ps),
          { st with
              typeStats := incrementTypeCount st.typeStats (getTypeKey nm ps),
              circularTypes := st.circularTypes ++ [getTypeKey nm ps] })) ∧
    (∀ (fuel : Nat) (ir : IR) (st : InstState) (r : IR) (st' : InstState),
      instantiate fuel ir st = .ok (r, st') →
      ∀ x ∈ st'.circularTypes, ∃ i,
        memoGet st'.instantiatedTypes x = some i ∧ i.circular = true) ∧
    (∃ (r : IR) (st' : InstState) (i : TypeInfo),
      instantiate 30 (.type "Node" [.primitiveType "number"])
        ⟨[], [], nodeTable, [], []⟩ = .ok (r, st') ∧
      memoGet st'.instantiatedTypes
        (getTypeKey "Node" [.primitiveType "number"]) = some i ∧
      i.circular = true) := by
  refine ⟨?_, ?_, ?_⟩
  · intro n cs nm ps st hin
    simp only [patchCB]
    rw [if_pos hin]
  · intro fuel ir st r st' h x hx
    simp only [instantiate] at h
    obtain ⟨⟨pr, stP⟩, hpatch, h2⟩ := bind_ok_elim _ _ _ h
    obtain ⟨memo2, hmark, h3⟩ := bind_ok_elim _ _ _ h2
    injection h3 with h4
    injection h4 with h5 h6
    rw [← h6] at hx ⊢
    exact markCircular_marks stP.circularTypes _ _ hmark x hx
  · exact ⟨_, _, _, rfl, rfl, rfl⟩

/-- C3: witness.  Part 1 applied to the key `A` already on the ancestry
path, and part 2 applied to the completed `Node<number>` run, whose
circular-pending list is exactly `Node<number>`'s key. -/
theorem C3_witness :
    patchCB 1 ["A"] (.type "A" []) ⟨[], [], [], [], []⟩ =
      .ok (.instantiatedType "A",
        ⟨[("A", 1)], [], [], [], ["A"]⟩) ∧
    (∃ i, memoGet
        [("Node<p:number,>",
          (⟨[("Node<p:number,>", 1)],
            .objectPattern
              [.mk (.str "value") false (.primitiveType "number"),
               .mk (.str "next") false (.instantiatedType "Node<p:number,>")]
              none none, true⟩ : TypeInfo))] "Node<p:number,>" = some i ∧
      i.circular = true) := by
  constructor
  · exact C3_theorem.1 0 ["A"] "A" [] ⟨[], [], [], [], []⟩ rfl
  · exact C3_theorem.2.1 30 (.type "Node" [.primitiveType "number"])
      ⟨[], [], nodeTable, [], []⟩ (.instantiatedType "Node<p:number,>")
      ⟨[("Node<p:number,>", 2)],
       [("Node<p:number,>",
         ⟨[("Node<p:number,>", 1)],
          .objectPattern
            [.mk (.str "value") false (.primitiveType "number"),
             .mk (.str "next") false (.instantiatedType "Node<p:number,>")]
            none none, true⟩)],
       nodeTable, ["Node<p:number,>"], ["Node<p:number,>"]⟩
      rfl "Node<p:number,>" (by simp)

lemma patchIR_type (n : Nat) (nm : String) (ps : List IR) (st : InstState)
    (cs : List String) :
    patchIR (n + 1) (.type nm ps) st cs = patchCB n cs (.type nm ps) st := rfl

lemma patchIR_tuple2 (n : Nat) (t1 t2 : IR) (f : Nat) (st : InstState)
    (cs : List String) :
    patchIR (n + 1) (.tuple [t1, t2] none f) st cs = (do
      let (cs', st1) ← patchIRList n [t1, t2] st cs
      let (r', st2) ← patchIROpt n none st1 cs
      .ok (.tuple cs' r' f, st2)) := rfl

lemma patchIRList_cons (n : Nat) (x : IR) (xs : List IR) (st : InstState)
    (cs : List String) :
    patchIRList (n + 1) (x :: xs) st cs = (do
      let (x', st1) ← patchIR n x st cs
      let (xs', st2) ← patchIRList n xs st1 cs
      .ok (x' :: xs', st2)) := rfl

lemma patchIRList_nil (n : Nat) (st : InstState) (cs : List String) :
    patchIRList (n + 1) [] st cs = .ok ([], st) := rfl

lemma patchIROpt_none (n : Nat) (st : InstState) (cs : List String) :
    patchIROpt (n + 1) none st cs = .ok (none, st) := rfl

lemma patchCB_hit (n : Nat) (cs : List String) (nm : String) (ps : List IR)
    (st : InstState) (info : TypeInfo)
    (hcont : cs.contains (getTypeKey nm ps) = false)
    (hhit : memoGet st.instantiatedTypes (getTypeKey nm ps) = some info) :
    patchCB (n + 1) cs (.type nm ps) st =
      .ok (.instantiatedType (getTypeKey nm ps),
        { st with
            typeStats := addStats
              (incrementTypeCount st.typeStats (getTypeKey nm ps))
              info.typeStats }) := by
  simp only [patchCB]
  rw [hcont, hhit]
  rfl

lemma patchCB_miss (n : Nat) (cs : List String) (nm : String) (ps : List IR)
    (st : InstState)
    (hcont : cs.contains (getTypeKey nm ps) = false)
    (hmiss : memoGet st.instantiatedTypes (getTypeKey nm ps) = none) :
    patchCB (n + 1) cs (.type nm ps) st =
      (match lookupTable st.namedTypes nm with
       | none => .error (.unregisteredType nm)
       | some referencedIR =>
         if !(isInterface referencedIR || isTypeAlias referencedIR ||
             isBuiltinType referencedIR) then
           .error (.typeDoesNotAcceptGenericParameters nm (irKind referencedIR))
         else do
           let (instantiated, stRec) ←
             patchIR n (applyTypeParameters referencedIR nm ps)
               { st with typeStats := [] }
               (getTypeKey nm ps :: cs)
           .ok (.instantiatedType (getTypeKey nm ps),
             { stRec with
                 typeStats := addStats
                   (incrementTypeCount st.typeStats (getTypeKey nm ps))
                   stRec.typeStats,
                 instantiatedTypes := memoSet stRec.instantiatedTypes
                   (getTypeKey nm ps) ⟨stRec.typeStats, instantiated, false⟩,
                 newInstantiatedTypes := stRec.newInstantiatedTypes ++
                   [getTypeKey nm ps] })) := by
  simp only [patchCB]
  rw [hcont, hmiss]
  rfl

/-- C4: memoization by canonical key.  For an IR holding two references to
the same generic with structurally-equal type parameters (a two-element
tuple of identical `Type` nodes), starting from a state whose statistics
and memo-entry statistics are positive, whose memo has no entry for the
references' canonical key and whose new-instantiation list does not mention
it: a successful run of the instantiation traversal leaves exactly one
new-instantiation record for the key (the declaration body is recursed into
exactly once), a memo entry for the key, and a global usage count for the
key of at least 2. -/
theorem C4_theorem (n : Nat) (nm : String) (ps : List IR) (f : Nat)
    (st : InstState) (r : IR) (st' : InstState)
    (hmem : ∀ p ∈ st.instantiatedTypes, statsPos p.2.typeStats)
    (hmemo : memoGet st.instantiatedTypes (getTypeKey nm ps) = none)
    (hnew : List.count (getTypeKey nm ps) st.newInstantiatedTypes = 0)
    (h : patchIR n (.tuple [.type nm ps, .type nm ps] none f) st [] =
      .ok (r, st')) :
    (∃ info, memoGet st'.instantiatedTypes (getTypeKey nm ps) = some info) ∧
    List.count (getTypeKey nm ps) st'.newInstantiatedTypes = 1 ∧
    (∃ c, statsGet st'.typeStats (getTypeKey nm ps) = some c ∧ 2 ≤ c) := by
  cases n with
  | zero => exact absurd h (by simp [patchIR])
  | succ n1 =>
  rw [patchIR_tuple2] at h
  obtain ⟨⟨cs', s1⟩, hlist, h2⟩ := bind_ok_elim _ _ _ h
  cases n1 with
  | zero => exact absurd hlist (by simp [patchIRList])
  | succ n2 =>
  rw [patchIRList_cons] at hlist
  obtain ⟨⟨e1, sA⟩, ht1, hl2⟩ := bind_ok_elim _ _ _ hlist
  obtain ⟨⟨es, sB⟩, hl3, hl4⟩ := bind_ok_elim _ _ _ hl2
  dsimp only at h2
  rw [patchIROpt_none, ok_bind] at h2
  injection h2 with h2a
  injection h2a with h2b h2c
  injection hl4 with hl4a
  injection hl4a with hl4b hl4c
  cases n2 with
  | zero => exact absurd ht1 (by simp [patchIR])
  | succ n3 =>
  rw [patchIRList_cons] at hl3
  obtain ⟨⟨e2, sC⟩, ht2, hl5⟩ := bind_ok_elim _ _ _ hl3
  rw [patchIR_type] at ht1
  cases n3 with
  | zero => exact absurd ht1 (by simp [patchCB])
  | succ n4 =>
  dsimp only at hl5
  rw [patchIRList_nil, ok_bind] at hl5
  injection hl5 with hl5a
  injection hl5a with hl5b hl5c
  rw [patchCB_miss n4 [] nm ps st rfl hmemo] at ht1
  split at ht1
  · exact absurd ht1 (by simp)
  · split at ht1
    · exact absurd ht1 (by simp)
    · next referencedIR hlook hguard =>
      obtain ⟨⟨instantiated, stRec⟩, hrec, hfin⟩ := bind_ok_elim _ _ _ ht1
      injection hfin with hf1
      injection hf1 with hf2 hf3
      have invRec : InstInv stRec := by
        refine (patch_inv n4).1 _ _ _ _ _ hrec ⟨?_, ?_⟩
        · intro a b hm
          simp at hm
        · exact hmem
      obtain ⟨mR, cR⟩ := (patch_protected n4).1 _ _ _ _ _ (getTypeKey nm ps)
        hrec (by simp [List.contains_cons]) hmemo
      have cR' : List.count (getTypeKey nm ps) stRec.newInstantiatedTypes =
          List.count (getTypeKey nm ps) st.newInstantiatedTypes := cR
      have hmemoA : memoGet sA.instantiatedTypes (getTypeKey nm ps) =
          some ⟨stRec.typeStats, instantiated, false⟩ := by
        rw [← hf3]
        exact memoGet_memoSet_self _ _ _
      have hcountA : List.count (getTypeKey nm ps) sA.newInstantiatedTypes = 1 := by
        rw [← hf3]
        show List.count (getTypeKey nm ps)
          (stRec.newInstantiatedTypes ++ [getTypeKey nm ps]) = 1
        rw [List.count_append, cR', hnew]
        simp
      obtain ⟨b1, hb1, hb11, _⟩ := statsGet_incrementTypeCount_self st.typeStats
        (getTypeKey nm ps)
      obtain ⟨c1, hc1, hc11⟩ := addStats_bound
        (incrementTypeCount st.typeStats (getTypeKey nm ps)) stRec.typeStats
        (getTypeKey nm ps) b1 1 invRec.1 (by omega) hb1 hb11
      have hstatA : statsGet sA.typeStats (getTypeKey nm ps) = some c1 := by
        rw [← hf3]
        exact hc1
      rw [patchIR_type] at ht2
      cases n4 with
      | zero => exact absurd ht2 (by simp [patchCB])
      | succ n5 =>
      rw [patchCB_hit n5 [] nm ps sA ⟨stRec.typeStats, instantiated, false⟩
        rfl hmemoA] at ht2
      injection ht2 with ht2a
      injection ht2a with ht2b ht2c
      obtain ⟨b2, hb2, hb21, hb2eq⟩ := statsGet_incrementTypeCount_self
        sA.typeStats (getTypeKey nm ps)
      have hb2c1 : b2 = c1 + 1 := hb2eq c1 hstatA
      obtain ⟨c2, hc2, hc21⟩ := addStats_bound
        (incrementTypeCount sA.typeStats (getTypeKey nm ps)) stRec.typeStats
        (getTypeKey nm ps) b2 2 invRec.1 (by omega) hb2 (by omega)
      rw [← h2c, ← hl4c, ← hl5c, ← ht2c]
      refine ⟨⟨⟨stRec.typeStats, instantiated, false⟩, ?_⟩, ?_, ⟨c2, ?_, hc21⟩⟩
      · exact hmemoA
      · exact hcountA
      · exact hc2

/-- The generic declaration `Box<T> = {item: T}` used by the C4 witness. -/
def boxTable : Table :=
  [("Box", .alias (.objectPattern
      [.mk (.str "item") false (.genericType 0)] none none) 1)]

/-- C4: witness.  Instantiating the tuple `[Box<number>, Box<number>]`
against `Box<T> = {item: T}` from the empty state yields one memo entry,
one new-instantiation record, and a usage count of 2 for `Box<number>`'s
key. -/
theorem C4_witness :
    (∃ info, memoGet
      [("Box<p:number,>",
        (⟨[], .objectPattern [.mk (.str "item") false (.primitiveType "number")]
          none none, false⟩ : TypeInfo))] "Box<p:number,>" = some info) ∧
    List.count "Box<p:number,>" ["Box<p:number,>"] = 1 ∧
    (∃ c, statsGet [("Box<p:number,>", 2)] "Box<p:number,>" = some c ∧ 2 ≤ c) :=
  C4_theorem 20 "Box" [.primitiveType "number"] 2
    ⟨[], [], boxTable, [], []⟩
    (.tuple [.instantiatedType "Box<p:number,>",
      .instantiatedType "Box<p:number,>"] none 2)
    ⟨[("Box<p:number,>", 2)],
     [("Box<p:number,>",
       ⟨[], .objectPattern [.mk (.str "item") false (.primitiveType "number")]
         none none, false⟩)],
     boxTable, ["Box<p:number,>"], []⟩
    (fun p hp => absurd hp (List.not_mem_nil p))
    rfl rfl rfl

end TypecheckMacro
